import Mathlib

/-!
Verification development for the WhatsClaude bridge (TypeScript sources).

The definitions below are a shallow embedding of the concurrency and
state-continuity subsystem: project-name sanitization (projects.ts),
per-conversation sequential queues and the message router (router.ts),
session bookkeeping and the invocation pipeline (sessions.ts, claude.ts),
audit logging (history.ts) and the process lock (lockfile.ts).
Strings are modelled as Lean strings (lists of characters); timestamps as
naturals; the file system and the agent backend as explicit state and
input parameters.
-/

namespace Whatscode

/- ### projects.ts: sanitizeProjectName -/

/-- JS regex class [a-zA-Z0-9]. -/
def isAlnumJS (c : Char) : Bool :=
  ('a' ≤ c && c ≤ 'z') || ('A' ≤ c && c ≤ 'Z') || ('0' ≤ c && c ≤ '9')

/-- JS regex class \s, restricted to the ASCII whitespace characters
(the model's character domain for this development). -/
def isSpaceJS (c : Char) : Bool :=
  c = ' ' || c = '\t' || c = '\n' || c = '\r' || c = '\x0b' || c = '\x0c'

/-- Characters kept by the first replace of sanitizeProjectName:
everything outside [^a-zA-Z0-9-_\s] is removed. -/
def isKeptChar (c : Char) : Bool :=
  isAlnumJS c || c = '-' || c = '_' || isSpaceJS c

def isDashC (c : Char) : Bool := c = '-'

/-- Try to match pattern `pat` at the beginning of `s`; on success return
the remainder of `s`. -/
def matchTag : List Char → List Char → Option (List Char)
  | [], s => some s
  | _ :: _, [] => none
  | p :: ps, c :: cs => if p = c then matchTag ps cs else none

/-- JS String.replace with a string pattern: remove the first occurrence of
`pat` anywhere in the string (source: groupName.replace(config.groupPrefix, '')). -/
def removeFirstOcc (pat : List Char) : List Char → List Char
  | [] => []
  | c :: cs =>
    match matchTag pat (c :: cs) with
    | some rest => rest
    | none => c :: removeFirstOcc pat cs

/-- JS String.trim on the ASCII character domain. -/
def trimChars (s : List Char) : List Char :=
  ((s.dropWhile isSpaceJS).reverse.dropWhile isSpaceJS).reverse

/-- JS String.replace(/p+/g, d): every maximal run of characters satisfying
`p` is replaced by the single character `d`. -/
def collapseRuns (p : Char → Bool) (d : Char) : List Char → List Char
  | [] => []
  | [c] => if p c then [d] else [c]
  | c :: c2 :: cs =>
    if p c then
      if p c2 then collapseRuns p d (c2 :: cs)
      else d :: collapseRuns p d (c2 :: cs)
    else c :: collapseRuns p d (c2 :: cs)

/-- Remove a single leading dash (the ^- alternative of /^-|-$/g). -/
def dropLeadDash : List Char → List Char
  | [] => []
  | c :: t => if c = '-' then t else c :: t

/-- Remove a single trailing dash (the -$ alternative of /^-|-$/g). -/
def dropTrailDash : List Char → List Char
  | [] => []
  | [c] => if c = '-' then [] else [c]
  | c :: c2 :: cs => c :: dropTrailDash (c2 :: cs)

/-- JS String.replace(/^-|-$/g, ''). -/
def trimDashEnds (s : List Char) : List Char :=
  dropTrailDash (dropLeadDash s)

/-- config.groupPrefix = "Claude:". -/
def claudeTag : List Char := ['C', 'l', 'a', 'u', 'd', 'e', ':']

/-- projects.ts sanitizeProjectName, on character lists:
remove first occurrence of "Claude:", trim, keep only [a-zA-Z0-9-_\s],
whitespace runs to single dashes, collapse dash runs, strip end dashes. -/
def sanitizeChars (s : List Char) : List Char :=
  trimDashEnds
    (collapseRuns isDashC '-'
      (collapseRuns isSpaceJS '-'
        ((trimChars (removeFirstOcc claudeTag s)).filter isKeptChar)))

/-- projects.ts sanitizeProjectName, on strings. -/
def sanitizeProjectName (s : String) : String :=
  ⟨sanitizeChars s.data⟩

example : sanitizeProjectName "Claude: My App!" = "My-App" := by decide
example : sanitizeProjectName "Claude: my-app" = "my-app" := by decide
example : sanitizeProjectName "Claude:   spaced  " = "spaced" := by decide
example : sanitizeProjectName "Claude: my cool app" = "my-cool-app" := by decide
example : sanitizeProjectName "Claude: my-app_v2" = "my-app_v2" := by decide
example : sanitizeProjectName "Claude: my--app" = "my-app" := by decide
example : sanitizeProjectName "Claude: -app-" = "app" := by decide
example : sanitizeProjectName "Claude:" = "" := by decide

/- ### router.ts: per-group p-queue with concurrency 1 -/

/-- A job built by routeMessage before enqueueing. -/
structure Job where
  messageId : String
  body : String
  senderId : String
  senderName : String
deriving DecidableEq, Repr

/-- State of one group's p-queue together with its worker.
`waiting` models p-queue `size` (queued, not started), `running` models
p-queue `pending` (started, not settled), `delivered` the responses sent
in order, `submitted` the whole admission order (ghost field). -/
structure QueueState where
  submitted : List Job
  waiting : List Job
  running : List Job
  delivered : List Job
deriving DecidableEq, Repr

def emptyQueue : QueueState := ⟨[], [], [], []⟩

/-- queue.add: p-queue appends the task in arrival order. -/
def enqueueJob (q : QueueState) (j : Job) : QueueState :=
  { q with submitted := q.submitted ++ [j], waiting := q.waiting ++ [j] }

/-- Internal moves of a p-queue worker with concurrency `conc`: start the
oldest waiting task when fewer than `conc` are running; finish the oldest
running task, delivering its response. -/
inductive WorkerStep : Nat → QueueState → QueueState → Prop
  | start {conc : Nat} {sub w r d : List Job} (j : Job) :
      r.length < conc →
      WorkerStep conc ⟨sub, j :: w, r, d⟩ ⟨sub, w, r ++ [j], d⟩
  | finish {conc : Nat} {sub w r d : List Job} (j : Job) :
      WorkerStep conc ⟨sub, w, j :: r, d⟩ ⟨sub, w, r, d ++ [j]⟩

/-- All moves observable on one group's queue: an admission (queue.add) or
a worker move. -/
inductive QueueStep : Nat → QueueState → QueueState → Prop
  | enqueue {conc : Nat} (q : QueueState) (j : Job) :
      QueueStep conc q (enqueueJob q j)
  | work {conc : Nat} {q q' : QueueState} :
      WorkerStep conc q q' → QueueStep conc q q'

/-- States reachable from the fresh queue made by getQueue
(new PQueue with concurrency conc). -/
inductive QueueReach (conc : Nat) : QueueState → Prop
  | init : QueueReach conc emptyQueue
  | step {q q' : QueueState} :
      QueueReach conc q → QueueStep conc q q' → QueueReach conc q'

/- ### router.ts + sessions.ts registry: the conversation router -/

/-- Association-list read (JS object property read). -/
def findVal {α : Type} : List (String × α) → String → Option α
  | [], _ => none
  | (k, v) :: rest, key => if k = key then some v else findVal rest key

/-- Association-list write (JS object property assignment). -/
def setVal {α : Type} : List (String × α) → String → α → List (String × α)
  | [], key, v => [(key, v)]
  | (k, w) :: rest, key, v =>
    if k = key then (k, v) :: rest else (k, w) :: setVal rest key v

/-- chat.name.startsWith(config.groupPrefix). -/
def startsWithTag : List Char → List Char → Bool
  | [], _ => true
  | _ :: _, [] => false
  | p :: ps, c :: cs => p = c && startsWithTag ps cs

def nameHasTag (name : String) : Bool := startsWithTag claudeTag name.data

/-- JS String.trim for the empty-message check. -/
def jsTrim (s : String) : String := ⟨trimChars s.data⟩

/-- Inbound chat descriptor (whatsapp-web.js Chat). -/
structure ChatInfo where
  isGroup : Bool
  name : String
  chatId : String
deriving DecidableEq, Repr

/-- Inbound message with the sender identity already resolved
(message.getContact collapsed into fields). -/
structure MsgInfo where
  hasMedia : Bool
  body : String
  messageId : String
  senderId : String
  senderName : String
deriving DecidableEq, Repr

/-- Observable outcome of routeMessage. -/
inductive RouteResult
  | notProject
  | mediaNotice
  | droppedEmpty
  | conflictNotice (projectName : String)
  | queueFullNotice
  | enqueued (j : Job)
deriving DecidableEq, Repr

/-- Router-side process state: the project registry (sessions.ts
groupRegistry), the per-group queues (router.ts queues map) and the
created project directories. -/
structure SysState where
  registry : List (String × String)
  queues : List (String × QueueState)
  dirs : List String
deriving DecidableEq, Repr

def projectsRoot : String := "claude-projects"

/-- projects.ts getProjectPath. -/
def getProjectPath (groupName : String) : String :=
  projectsRoot ++ "/" ++ sanitizeProjectName groupName

/-- router.ts getQueue: fetch the group's queue, lazily creating it. -/
def getQueueState (st : SysState) (gid : String) : QueueState × SysState :=
  match findVal st.queues gid with
  | some q => (q, st)
  | none => (emptyQueue, { st with queues := setVal st.queues gid emptyQueue })

/-- projects.ts ensureProjectExists: create the directory if absent. -/
def ensureProjectDir (st : SysState) (path : String) : SysState :=
  if path ∈ st.dirs then st else { st with dirs := st.dirs ++ [path] }

/-- Admission tail of routeMessage after claim resolution: getQueue, the
queue.size limit check, ensureProjectExists, and queue.add. -/
def routeAdmit (maxQ : Nat) (st : SysState) (ch : ChatInfo) (m : MsgInfo) :
    RouteResult × SysState :=
  let qs := getQueueState st ch.chatId
  if maxQ ≤ qs.1.waiting.length then (RouteResult.queueFullNotice, qs.2)
  else
    let st2 := ensureProjectDir qs.2 (getProjectPath ch.name)
    let j : Job := ⟨m.messageId, m.body, m.senderId, m.senderName⟩
    (RouteResult.enqueued j,
      { st2 with queues := setVal st2.queues ch.chatId (enqueueJob qs.1 j) })

/-- sessions.ts registerGroup (groupRegistry[projectName] = groupId). -/
def registerGroup (st : SysState) (projectName gid : String) : SysState :=
  { st with registry := setVal st.registry projectName gid }

/-- router.ts routeMessage: filters, claim resolution against the registry
(JS truthiness of the looked-up owner made explicit), then admission. -/
def routeMessage (maxQ : Nat) (st : SysState) (ch : ChatInfo) (m : MsgInfo) :
    RouteResult × SysState :=
  if !(ch.isGroup && nameHasTag ch.name) then (RouteResult.notProject, st)
  else if m.hasMedia then (RouteResult.mediaNotice, st)
  else if jsTrim m.body = "" then (RouteResult.droppedEmpty, st)
  else
    let projectName := sanitizeProjectName ch.name
    match findVal st.registry projectName with
    | some owner =>
      if owner ≠ "" then
        if owner ≠ ch.chatId then (RouteResult.conflictNotice projectName, st)
        else routeAdmit maxQ st ch m
      else routeAdmit maxQ (registerGroup st projectName ch.chatId) ch m
    | none => routeAdmit maxQ (registerGroup st projectName ch.chatId) ch m

/-- Whole-router transitions: an inbound event processed by routeMessage,
or a worker move inside one group's queue. -/
inductive SysStep (maxQ : Nat) : SysState → SysState → Prop
  | arrive (st : SysState) (ch : ChatInfo) (m : MsgInfo) :
      SysStep maxQ st (routeMessage maxQ st ch m).2
  | work (st : SysState) (gid : String) {q q' : QueueState} :
      findVal st.queues gid = some q → WorkerStep 1 q q' →
      SysStep maxQ st { st with queues := setVal st.queues gid q' }

/-- Router states reachable from a fresh process. -/
inductive SysReach (maxQ : Nat) : SysState → Prop
  | init : SysReach maxQ ⟨[], [], []⟩
  | step {st st' : SysState} :
      SysReach maxQ st → SysStep maxQ st st' → SysReach maxQ st'

/- ### sessions.ts, history.ts, claude.ts: the invocation pipeline -/

/-- sessions.ts SessionInfo. -/
structure SessionInfo where
  sessionId : String
  projectPath : String
  groupName : String
  lastActivity : Nat
deriving DecidableEq, Repr

/-- history.ts StoredMessage (one JSONL line). -/
structure StoredMessage where
  msgId : String
  ts : Nat
  groupId : String
  groupName : String
  role : String
  sender : String
  senderName : String
  content : String
deriving DecidableEq, Repr

/-- File-system fragment seen by history.ts: created directories, history
files as parsed line lists, the sets of paths whose mkdir / append calls
fail, and the error log. -/
structure FsState where
  dirs : List String
  files : List (String × List StoredMessage)
  mkdirFails : List String
  appendFails : List String
  errorLog : List String
deriving DecidableEq, Repr

def historyDir (projectPath : String) : String :=
  projectPath ++ "/.whatsclaude"

/-- history.ts getHistoryPath. -/
def getHistoryPath (projectPath : String) : String :=
  projectPath ++ "/.whatsclaude/history.jsonl"

/-- The try block of appendToHistory: appendFileSync, with its failure
caught and logged. -/
def tryAppend (fs : FsState) (path : String) (message : StoredMessage) :
    FsState :=
  if path ∈ fs.appendFails then
    { fs with errorLog := fs.errorLog ++ ["Failed to append to history"] }
  else
    { fs with files := setVal fs.files path ((findVal fs.files path).getD [] ++ [message]) }

/-- history.ts appendToHistory. The mkdirSync call sits outside the
try/catch, so a directory-creation failure escapes as an exception
(Except.error); only the appendFileSync failure is swallowed. -/
def appendToHistory (fs : FsState) (projectPath : String)
    (message : StoredMessage) : Except String FsState :=
  let dir := historyDir projectPath
  if dir ∈ fs.dirs then
    Except.ok (tryAppend fs (getHistoryPath projectPath) message)
  else if dir ∈ fs.mkdirFails then
    Except.error ("ENOENT: mkdir failed for " ++ dir)
  else
    Except.ok (tryAppend { fs with dirs := fs.dirs ++ [dir] }
      (getHistoryPath projectPath) message)

/-- Process state seen by claude.ts: the in-memory session map, the
persisted snapshot of it (SESSIONS_FILE), whether the disk write fails,
the history file system, and the clock. -/
structure ClaudeEnv where
  sessions : List (String × SessionInfo)
  stateFile : Option (List (String × SessionInfo))
  persistFails : Bool
  fs : FsState
  now : Nat
deriving DecidableEq, Repr

/-- sessions.ts saveState: writeFileSync with its failure caught and
logged (the write is skipped, the in-memory map is kept). -/
def saveState (env : ClaudeEnv) : ClaudeEnv :=
  if env.persistFails then
    { env with fs := { env.fs with errorLog := env.fs.errorLog ++ ["Failed to save state"] } }
  else
    { env with stateFile := some env.sessions }

/-- sessions.ts getSession. -/
def getSession (env : ClaudeEnv) (groupId : String) : Option SessionInfo :=
  findVal env.sessions groupId

/-- sessions.ts setSession (assign, then saveState). -/
def setSession (env : ClaudeEnv) (groupId : String) (info : SessionInfo) :
    ClaudeEnv :=
  saveState { env with sessions := setVal env.sessions groupId info }

/-- sessions.ts updateLastActivity: refresh only lastActivity of an
existing record, then saveState; do nothing when no record exists. -/
def updateLastActivity (env : ClaudeEnv) (groupId : String) : ClaudeEnv :=
  match findVal env.sessions groupId with
  | some info =>
    saveState { env with
      sessions := setVal env.sessions groupId { info with lastActivity := env.now } }
  | none => env

/-- Typed events of the agent backend stream (claude-agent-sdk query). -/
inductive AgentEvent
  | initEv (sessionId : String)
  | toolEv (name : String)
  | resultEv (text : String)
  | otherEv
deriving DecidableEq, Repr

/-- One backend invocation as observed by the for-await loop: the events
consumed, and an error raised after them (none = clean completion). -/
structure AgentStream where
  events : List AgentEvent
  failure : Option String
deriving DecidableEq, Repr

/-- The loop body of handleClaudeQuery: every init-type event overwrites
sessionId, every result-bearing event overwrites result. -/
def foldEvents : List AgentEvent → Option String → String → Option String × String
  | [], sid, res => (sid, res)
  | AgentEvent.initEv s :: rest, _, res => foldEvents rest (some s) res
  | AgentEvent.resultEv t :: rest, sid, _ => foldEvents rest sid t
  | _ :: rest, sid, res => foldEvents rest sid res

/-- Consume the stream: on failure the catch block substitutes the
formatted error string for the result and keeps the captured session id. -/
def runStream (st : AgentStream) : Option String × String :=
  let folded := foldEvents st.events none ""
  match st.failure with
  | none => folded
  | some e => (folded.1, "❌ Error: " ++ e)

/-- The resume option passed to query(): present exactly when an existing
record holds a truthy (nonempty) session id, per the JS
...(existingSession?.sessionId && ...) spread. -/
def resumeTokenOf (existing : Option SessionInfo) : Option String :=
  match existing with
  | some info => if info.sessionId = "" then none else some info.sessionId
  | none => none

/-- claude.ts ClaudeQueryParams. -/
structure QueryParams where
  groupId : String
  groupName : String
  projectPath : String
  message : String
  senderName : String
  senderId : String
  messageId : String
deriving DecidableEq, Repr

/-- Outcome of handleClaudeQuery: the returned text, or the exception that
escaped it; whether the backend was invoked; the final process state. -/
structure QueryOutcome where
  result : Except String String
  backendInvoked : Bool
  env : ClaudeEnv
deriving Repr

/-- The session-store update of handleClaudeQuery: a truthy captured
session id overwrites the whole record; otherwise an existing record gets
only its lastActivity refreshed (JS if (sessionId) / else if
(existingSession)). -/
def sessionUpdate (env : ClaudeEnv) (p : QueryParams)
    (existing : Option SessionInfo) (sid : Option String) : ClaudeEnv :=
  match sid with
  | some s =>
    if s = "" then
      match existing with
      | some _ => updateLastActivity env p.groupId
      | none => env
    else setSession env p.groupId ⟨s, p.projectPath, p.groupName, env.now⟩
  | none =>
    match existing with
    | some _ => updateLastActivity env p.groupId
    | none => env

/-- claude.ts handleClaudeQuery, parametric in the backend (resume token
to event stream). Both appendToHistory calls sit outside the try/catch of
the query loop, so their exceptions escape. -/
def handleClaudeQuery (backend : Option String → AgentStream)
    (env : ClaudeEnv) (p : QueryParams) : QueryOutcome :=
  let existing := getSession env p.groupId
  let userMessage : StoredMessage :=
    ⟨p.messageId, env.now, p.groupId, p.groupName, "user", p.senderId, p.senderName, p.message⟩
  match appendToHistory env.fs p.projectPath userMessage with
  | Except.error e => ⟨Except.error e, false, env⟩
  | Except.ok fs1 =>
    let env1 := { env with fs := fs1 }
    let stream := backend (resumeTokenOf existing)
    let sr := runStream stream
    let env2 := sessionUpdate env1 p existing sr.1
    let assistantMessage : StoredMessage :=
      ⟨"response-" ++ p.messageId, env2.now, p.groupId, p.groupName, "assistant", "claude", "Claude", sr.2⟩
    match appendToHistory env2.fs p.projectPath assistantMessage with
    | Except.error e => ⟨Except.error e, true, env2⟩
    | Except.ok fs2 => ⟨Except.ok sr.2, true, { env2 with fs := fs2 }⟩

/- ### lockfile.ts: process exclusivity -/

/-- World seen by lockfile.ts: the lock file (none = absent; some p = file
present with parse result p), the set of live pids, the Chrome profile
lock signal, and this process's pid. -/
structure LockEnv where
  lockContent : Option (Option Nat)
  runningPids : List Nat
  chromeLocks : Bool
  curPid : Nat
deriving DecidableEq, Repr

/-- lockfile.ts LockResult. -/
structure LockResultM where
  success : Bool
  error : Option String
deriving DecidableEq, Repr

/-- lockfile.ts readLockfile: absent or unparseable file yields null. -/
def readLockfile (env : LockEnv) : Option Nat :=
  match env.lockContent with
  | none => none
  | some p => p

def lockErrorMsg (pid : Nat) : String :=
  "Another WhatsClaude instance is running (PID " ++ toString pid ++ "). Stop it first."

def isProcessRunning (env : LockEnv) (pid : Nat) : Bool :=
  env.runningPids.contains pid

def removeLockfile (env : LockEnv) : LockEnv :=
  { env with lockContent := none }

def writeLockfile (env : LockEnv) : LockEnv :=
  { env with lockContent := some (some env.curPid) }

def chromeWarning : String :=
  "Chrome profile locks detected - previous session may not have exited cleanly"

/-- Tail of acquireLock after the existing-lock checks: warn (never block)
on Chrome locks, then write our pid. -/
def finishAcquire (env : LockEnv) : LockResultM × LockEnv × List String :=
  (⟨true, none⟩, writeLockfile env,
    if env.chromeLocks then [chromeWarning] else [])

/-- lockfile.ts acquireLock. Returns the LockResult, the final world, and
the warnings emitted. -/
def acquireLock (env : LockEnv) : LockResultM × LockEnv × List String :=
  match readLockfile env with
  | some pid =>
    if isProcessRunning env pid then
      if pid = env.curPid then (⟨true, none⟩, env, [])
      else (⟨false, some (lockErrorMsg pid)⟩, env, [])
    else finishAcquire (removeLockfile env)
  | none => finishAcquire env

/- ### Theorems -/

/-- C1: for a fixed conversation, the jobs admitted to its queue pass
through the concurrency-1 worker in exactly their submission order — in
every reachable queue state the delivered responses, followed by the
in-flight job and the waiting jobs, reproduce the submission list — and at
most one job of the conversation is in flight at any instant. The step
relation permits arbitrary interleaving of admissions and (arbitrarily
slow) completions, and offers no reordering or priority move. -/
theorem C1_fifo_order (q : QueueState) (h : QueueReach 1 q) :
    q.delivered ++ q.running ++ q.waiting = q.submitted ∧ q.running.length ≤ 1 := by
  induction h with
  | init => simp [emptyQueue]
  | step hr hs ih =>
    obtain ⟨ih1, ih2⟩ := ih
    cases hs with
    | enqueue j =>
      refine ⟨?_, by simpa [enqueueJob] using ih2⟩
      simp only [enqueueJob]
      rw [← List.append_assoc]
      rw [ih1]
    | work hw =>
      cases hw with
      | start j hlt =>
        dsimp only at ih1 ih2 ⊢
        constructor
        · rw [← ih1]
          simp
        · simp only [List.length_append, List.length_singleton]
          omega
      | finish j =>
        dsimp only at ih1 ih2 ⊢
        constructor
        · rw [← ih1]
          simp
        · simp only [List.length_cons] at ih2
          omega

def jW1 : Job := ⟨"m1", "hello", "s1", "Ann"⟩

def jW2 : Job := ⟨"m2", "again", "s1", "Ann"⟩

/-- Witness for C1: a concrete reachable queue state — two admissions,
then the first job started and finished — satisfies the ordering invariant. -/
theorem C1_fifo_order_witness :
    (QueueState.mk [jW1, jW2] [jW2] [] [jW1]).delivered
        ++ (QueueState.mk [jW1, jW2] [jW2] [] [jW1]).running
        ++ (QueueState.mk [jW1, jW2] [jW2] [] [jW1]).waiting
      = (QueueState.mk [jW1, jW2] [jW2] [] [jW1]).submitted
    ∧ (QueueState.mk [jW1, jW2] [jW2] [] [jW1]).running.length ≤ 1 :=
  C1_fifo_order ⟨[jW1, jW2], [jW2], [], [jW1]⟩ (by
    have h0 : QueueReach 1 emptyQueue := QueueReach.init
    have h1 : QueueReach 1 (enqueueJob emptyQueue jW1) :=
      QueueReach.step h0 (QueueStep.enqueue emptyQueue jW1)
    have h2 : QueueReach 1 (enqueueJob (enqueueJob emptyQueue jW1) jW2) :=
      QueueReach.step h1 (QueueStep.enqueue (enqueueJob emptyQueue jW1) jW2)
    have e2 : enqueueJob (enqueueJob emptyQueue jW1) jW2
        = ⟨[jW1, jW2], [jW1, jW2], [], []⟩ := rfl
    rw [e2] at h2
    have h3 : QueueReach 1 ⟨[jW1, jW2], [jW2], [] ++ [jW1], []⟩ :=
      QueueReach.step h2 (QueueStep.work (WorkerStep.start jW1 (by decide)))
    have e3 : (⟨[jW1, jW2], [jW2], [] ++ [jW1], []⟩ : QueueState)
        = ⟨[jW1, jW2], [jW2], [jW1], []⟩ := rfl
    rw [e3] at h3
    have h4 : QueueReach 1 ⟨[jW1, jW2], [jW2], [], [] ++ [jW1]⟩ :=
      QueueReach.step h3 (QueueStep.work (WorkerStep.finish jW1))
    simpa using h4)

/-- C7: when the lock file names a live pid other than the current
process, acquireLock fails with the actionable error and the world is
untouched (no lock written, nothing else mutated); when the named pid is
not running, the stale lock is reclaimed, acquisition succeeds and the
lock file ends up holding the current pid; and the Chrome-profile-lock
signal never influences the result or the resulting world — it only adds
a warning on the success path. -/
theorem C7_lock_acquire (env : LockEnv) (pid : Nat)
    (hread : readLockfile env = some pid) :
    (isProcessRunning env pid = true → pid ≠ env.curPid →
      acquireLock env = (⟨false, some (lockErrorMsg pid)⟩, env, []))
    ∧ (isProcessRunning env pid = false →
      (acquireLock env).1 = ⟨true, none⟩
      ∧ (acquireLock env).2.1.lockContent = some (some env.curPid)
      ∧ (env.chromeLocks = true → (acquireLock env).2.2 = [chromeWarning]))
    ∧ (∀ b1 b2 : Bool,
      (acquireLock { env with chromeLocks := b1 }).1
        = (acquireLock { env with chromeLocks := b2 }).1
      ∧ (acquireLock { env with chromeLocks := b1 }).2.1.lockContent
        = (acquireLock { env with chromeLocks := b2 }).2.1.lockContent) := by
  refine ⟨?_, ?_, ?_⟩
  · intro hrun hne
    simp [acquireLock, hread, hrun, hne]
  · intro hrun
    simp [acquireLock, hread, hrun, finishAcquire, writeLockfile, removeLockfile]
  · intro b1 b2
    have hread1 : readLockfile { env with chromeLocks := b1 } = some pid := hread
    have hread2 : readLockfile { env with chromeLocks := b2 } = some pid := hread
    have hrunAll : ∀ (b : Bool) (x : Nat),
        isProcessRunning { env with chromeLocks := b } x = isProcessRunning env x :=
      fun _ _ => rfl
    rcases hr : isProcessRunning env pid with _ | _
    · simp [acquireLock, hread1, hread2, hrunAll, hr, finishAcquire,
        writeLockfile, removeLockfile]
    · rcases heq : decide (pid = env.curPid) with _ | _
      · have hne : pid ≠ env.curPid := of_decide_eq_false heq
        simp [acquireLock, hread1, hread2, hrunAll, hr, hne]
      · have he : pid = env.curPid := of_decide_eq_true heq
        subst he
        simp [acquireLock, hread1, hread2, hrunAll, hr]

/-- Witness for C7 at a concrete world: lock file names pid 42 which is
not in the live-pid list, the current process is pid 7. -/
theorem C7_lock_acquire_witness :
    (isProcessRunning ⟨some (some 42), [99], true, 7⟩ 42 = true → 42 ≠ 7 →
      acquireLock ⟨some (some 42), [99], true, 7⟩
        = (⟨false, some (lockErrorMsg 42)⟩, ⟨some (some 42), [99], true, 7⟩, []))
    ∧ (isProcessRunning ⟨some (some 42), [99], true, 7⟩ 42 = false →
      (acquireLock ⟨some (some 42), [99], true, 7⟩).1 = ⟨true, none⟩
      ∧ (acquireLock ⟨some (some 42), [99], true, 7⟩).2.1.lockContent = some (some 7)
      ∧ ((⟨some (some 42), [99], true, 7⟩ : LockEnv).chromeLocks = true →
          (acquireLock ⟨some (some 42), [99], true, 7⟩).2.2 = [chromeWarning]))
    ∧ (∀ b1 b2 : Bool,
      (acquireLock { (⟨some (some 42), [99], true, 7⟩ : LockEnv) with chromeLocks := b1 }).1
        = (acquireLock { (⟨some (some 42), [99], true, 7⟩ : LockEnv) with chromeLocks := b2 }).1
      ∧ (acquireLock { (⟨some (some 42), [99], true, 7⟩ : LockEnv) with chromeLocks := b1 }).2.1.lockContent
        = (acquireLock { (⟨some (some 42), [99], true, 7⟩ : LockEnv) with chromeLocks := b2 }).2.1.lockContent) :=
  C7_lock_acquire ⟨some (some 42), [99], true, 7⟩ 42 rfl

/- ### C5: which init event's session id is recorded -/

def lastOpt {α : Type} : List α → Option α
  | [] => none
  | [x] => some x
  | _ :: x :: xs => lastOpt (x :: xs)

/-- Session id carried by an init-type event. -/
def initIdOf : AgentEvent → Option String
  | AgentEvent.initEv s => some s
  | _ => none

/-- Text carried by a result-bearing event. -/
def resultTextOf : AgentEvent → Option String
  | AgentEvent.resultEv t => some t
  | _ => none

theorem lastOpt_cons {α : Type} (a : α) (l : List α) :
    lastOpt (a :: l) = some ((lastOpt l).getD a) := by
  induction l generalizing a with
  | nil => rfl
  | cons x xs ih =>
    rw [show lastOpt (a :: x :: xs) = lastOpt (x :: xs) from rfl, ih]
    rfl

theorem elim_getD {α : Type} (o : Option α) (a : α) :
    o.elim (some a) some = some (o.getD a) := by
  cases o <;> rfl

theorem elim_none_some {α : Type} (o : Option α) :
    o.elim none some = o := by
  cases o <;> rfl

/-- The event-loop fold computes the LAST init id (with the accumulator as
fallback) and the LAST result text (with the accumulator as fallback). -/
theorem foldEvents_eq (evs : List AgentEvent) (sid : Option String) (res : String) :
    foldEvents evs sid res =
      ((lastOpt (evs.filterMap initIdOf)).elim sid some,
       (lastOpt (evs.filterMap resultTextOf)).getD res) := by
  induction evs generalizing sid res with
  | nil => rfl
  | cons e rest ih =>
    cases e with
    | initEv s =>
      rw [show foldEvents (AgentEvent.initEv s :: rest) sid res
          = foldEvents rest (some s) res from rfl, ih]
      simp only [List.filterMap_cons, initIdOf, resultTextOf, lastOpt_cons]
      cases lastOpt (rest.filterMap initIdOf) <;> rfl
    | toolEv n =>
      rw [show foldEvents (AgentEvent.toolEv n :: rest) sid res
          = foldEvents rest sid res from rfl, ih]
      simp only [List.filterMap_cons, initIdOf, resultTextOf]
    | resultEv t =>
      rw [show foldEvents (AgentEvent.resultEv t :: rest) sid res
          = foldEvents rest sid t from rfl, ih]
      simp only [List.filterMap_cons, initIdOf, resultTextOf, lastOpt_cons, Option.getD_some]
    | otherEv =>
      rw [show foldEvents (AgentEvent.otherEv :: rest) sid res
          = foldEvents rest sid res from rfl, ih]
      simp only [List.filterMap_cons, initIdOf, resultTextOf]

def streamC5 : AgentStream :=
  ⟨[AgentEvent.initEv "sid-first", AgentEvent.initEv "sid-last",
    AgentEvent.resultEv "done"], none⟩

def backendC5 : Option String → AgentStream := fun _ => streamC5

def envC5 : ClaudeEnv := ⟨[], some [], false, ⟨[historyDir "proj"], [], [], [], []⟩, 9⟩

def pC5 : QueryParams := ⟨"g1", "Claude: demo", "proj", "hi", "Ann", "s1", "m1"⟩

/-- Counterexample to C5: on a stream carrying two initialization events,
the pipeline records the session id of the LAST one ("sid-last"), not the
first one ("sid-first") as the claim states, while returning the last
result text. -/
theorem C5_counterexample :
    getSession (handleClaudeQuery backendC5 envC5 pC5).env "g1"
        = some ⟨"sid-last", "proj", "Claude: demo", 9⟩
    ∧ "sid-last" ≠ "sid-first"
    ∧ (handleClaudeQuery backendC5 envC5 pC5).result = Except.ok "done" := by
  refine ⟨by rfl, by decide, by rfl⟩

/-- C5 amended: the invocation pipeline returns the text of the last
result-bearing event and records the session identifier carried by the
LAST initialization-type event of the stream (when several initialization
events occur, the later one wins). -/
theorem C5_last_init_last_result (st : AgentStream) :
    (runStream st).1 = lastOpt (st.events.filterMap initIdOf)
    ∧ (st.failure = none →
        (runStream st).2 = (lastOpt (st.events.filterMap resultTextOf)).getD "") := by
  constructor
  · rcases st with ⟨evs, fail⟩
    cases fail <;>
      simp [runStream, foldEvents_eq, elim_none_some]
  · intro h
    rcases st with ⟨evs, fail⟩
    cases h
    simp [runStream, foldEvents_eq]

/-- Witness for the amended C5 at a concrete clean stream. -/
theorem C5_last_init_last_result_witness :
    (runStream ⟨[AgentEvent.initEv "a", AgentEvent.resultEv "r1",
        AgentEvent.resultEv "r2"], none⟩).1
      = lastOpt (([AgentEvent.initEv "a", AgentEvent.resultEv "r1",
        AgentEvent.resultEv "r2"]).filterMap initIdOf)
    ∧ (runStream ⟨[AgentEvent.initEv "a", AgentEvent.resultEv "r1",
        AgentEvent.resultEv "r2"], none⟩).2
      = (lastOpt (([AgentEvent.initEv "a", AgentEvent.resultEv "r1",
        AgentEvent.resultEv "r2"]).filterMap resultTextOf)).getD "" :=
  ⟨(C5_last_init_last_result ⟨[AgentEvent.initEv "a", AgentEvent.resultEv "r1",
      AgentEvent.resultEv "r2"], none⟩).1,
   (C5_last_init_last_result ⟨[AgentEvent.initEv "a", AgentEvent.resultEv "r1",
      AgentEvent.resultEv "r2"], none⟩).2 rfl⟩

/- ### Helper lemmas about the store and pipeline state -/

theorem findVal_setVal_self {α : Type} (l : List (String × α)) (k : String) (v : α) :
    findVal (setVal l k v) k = some v := by
  induction l with
  | nil => simp [setVal, findVal]
  | cons p rest ih =>
    obtain ⟨k0, v0⟩ := p
    by_cases hk : k0 = k
    · simp [setVal, findVal, hk]
    · simp [setVal, findVal, hk, ih]

theorem findVal_setVal_other {α : Type} (l : List (String × α)) (k k' : String)
    (v : α) (hne : k' ≠ k) : findVal (setVal l k v) k' = findVal l k' := by
  induction l with
  | nil =>
    have hne2 : ¬ k = k' := fun h => hne h.symm
    simp [setVal, findVal, hne2]
  | cons pr rest ih =>
    obtain ⟨k0, v0⟩ := pr
    by_cases hk : k0 = k
    · subst hk
      have hne2 : ¬ k0 = k' := fun h => hne h.symm
      simp [setVal, findVal, hne2]
    · simp [setVal, findVal, hk, ih]

theorem saveState_sessions (env : ClaudeEnv) :
    (saveState env).sessions = env.sessions := by
  unfold saveState
  split <;> rfl

theorem saveState_now (env : ClaudeEnv) : (saveState env).now = env.now := by
  unfold saveState
  split <;> rfl

theorem saveState_persistFails (env : ClaudeEnv) :
    (saveState env).persistFails = env.persistFails := by
  unfold saveState
  split <;> rfl

theorem saveState_fs_dirs (env : ClaudeEnv) :
    (saveState env).fs.dirs = env.fs.dirs := by
  unfold saveState
  split <;> rfl

theorem saveState_fs_mkdirFails (env : ClaudeEnv) :
    (saveState env).fs.mkdirFails = env.fs.mkdirFails := by
  unfold saveState
  split <;> rfl

theorem saveState_stateFile_ok (env : ClaudeEnv) (h : env.persistFails = false) :
    (saveState env).stateFile = some env.sessions := by
  unfold saveState
  rw [h]
  rfl

theorem saveState_stateFile_fail (env : ClaudeEnv) (h : env.persistFails = true) :
    (saveState env).stateFile = env.stateFile := by
  unfold saveState
  rw [h]
  rfl

theorem saveState_errorLog_extend (env : ClaudeEnv) :
    ∃ tail, (saveState env).fs.errorLog = env.fs.errorLog ++ tail := by
  unfold saveState
  split
  · exact ⟨["Failed to save state"], rfl⟩
  · exact ⟨[], by simp⟩

/-- A store write: the environment with the session map, the persisted
snapshot and the error log rewritten, everything else untouched. -/
def storeWrite (env : ClaudeEnv) (S : List (String × SessionInfo))
    (sf : Option (List (String × SessionInfo))) (log : List String) : ClaudeEnv :=
  ⟨S, sf, env.persistFails,
    ⟨env.fs.dirs, env.fs.files, env.fs.mkdirFails, env.fs.appendFails, log⟩, env.now⟩

/-- saveState rewrites only the persisted snapshot and the error log. -/
theorem saveState_shape (env : ClaudeEnv) :
    ∃ sf log, saveState env = storeWrite env env.sessions sf log := by
  unfold saveState storeWrite
  split
  · exact ⟨env.stateFile, env.fs.errorLog ++ ["Failed to save state"], rfl⟩
  · exact ⟨some env.sessions, env.fs.errorLog, rfl⟩

/-- setSession rewrites only the session map, the persisted snapshot and
the error log. -/
theorem setSession_shape (env : ClaudeEnv) (g : String) (i : SessionInfo) :
    ∃ S sf log, setSession env g i = storeWrite env S sf log := by
  unfold setSession
  obtain ⟨sf, log, h⟩ := saveState_shape { env with sessions := setVal env.sessions g i }
  exact ⟨setVal env.sessions g i, sf, log, h⟩

/-- updateLastActivity rewrites only the session map, the persisted
snapshot and the error log. -/
theorem updateLastActivity_shape (env : ClaudeEnv) (g : String) :
    ∃ S sf log, updateLastActivity env g = storeWrite env S sf log := by
  unfold updateLastActivity
  split
  · rename_i info heq
    obtain ⟨sf, log, h⟩ := saveState_shape
      { env with sessions := setVal env.sessions g { info with lastActivity := env.now } }
    exact ⟨_, sf, log, h⟩
  · exact ⟨env.sessions, env.stateFile, env.fs.errorLog, rfl⟩

/-- The whole session-store update step rewrites only the session map, the
persisted snapshot and the error log. -/
theorem sessionUpdate_shape (env : ClaudeEnv) (p : QueryParams)
    (ex : Option SessionInfo) (sid : Option String) :
    ∃ S sf log, sessionUpdate env p ex sid = storeWrite env S sf log := by
  unfold sessionUpdate
  rcases sid with _ | s
  · rcases ex with _ | r
    · exact ⟨env.sessions, env.stateFile, env.fs.errorLog, rfl⟩
    · exact updateLastActivity_shape env p.groupId
  · by_cases hs : s = ""
    · rcases ex with _ | r
      · simp only [hs, if_pos rfl]
        exact ⟨env.sessions, env.stateFile, env.fs.errorLog, rfl⟩
      · simp only [hs, if_pos rfl]
        exact updateLastActivity_shape env p.groupId
    · simp only [if_neg hs]
      exact setSession_shape env p.groupId ⟨s, p.projectPath, p.groupName, env.now⟩

theorem tryAppend_dirs (fs : FsState) (path : String) (m : StoredMessage) :
    (tryAppend fs path m).dirs = fs.dirs := by
  unfold tryAppend
  split <;> rfl

theorem tryAppend_mkdirFails (fs : FsState) (path : String) (m : StoredMessage) :
    (tryAppend fs path m).mkdirFails = fs.mkdirFails := by
  unfold tryAppend
  split <;> rfl

theorem tryAppend_appendFails (fs : FsState) (path : String) (m : StoredMessage) :
    (tryAppend fs path m).appendFails = fs.appendFails := by
  unfold tryAppend
  split <;> rfl

theorem tryAppend_errorLog_extend (fs : FsState) (path : String) (m : StoredMessage) :
    ∃ tail, (tryAppend fs path m).errorLog = fs.errorLog ++ tail := by
  unfold tryAppend
  split
  · exact ⟨["Failed to append to history"], rfl⟩
  · exact ⟨[], by simp⟩

/-- When the history directory already exists or its creation succeeds,
appendToHistory always returns normally (a failing appendFileSync is
swallowed inside its try/catch), and the directory exists afterwards. -/
theorem appendToHistory_ok (fs : FsState) (pp : String) (m : StoredMessage)
    (h : historyDir pp ∈ fs.dirs ∨ historyDir pp ∉ fs.mkdirFails) :
    ∃ fs', appendToHistory fs pp m = Except.ok fs'
      ∧ historyDir pp ∈ fs'.dirs
      ∧ fs'.mkdirFails = fs.mkdirFails
      ∧ ∃ tail, fs'.errorLog = fs.errorLog ++ tail := by
  by_cases hd : historyDir pp ∈ fs.dirs
  · refine ⟨tryAppend fs (getHistoryPath pp) m, ?_, ?_, ?_, ?_⟩
    · simp [appendToHistory, hd]
    · rw [tryAppend_dirs]
      exact hd
    · exact tryAppend_mkdirFails fs _ m
    · exact tryAppend_errorLog_extend fs _ m
  · have hmk : historyDir pp ∉ fs.mkdirFails := h.resolve_left hd
    refine ⟨tryAppend { fs with dirs := fs.dirs ++ [historyDir pp] } (getHistoryPath pp) m,
      ?_, ?_, ?_, ?_⟩
    · simp [appendToHistory, hd, hmk]
    · rw [tryAppend_dirs]
      simp
    · exact tryAppend_mkdirFails _ _ m
    · exact tryAppend_errorLog_extend _ _ m

theorem updateLastActivity_sessions_found (env : ClaudeEnv) (g : String)
    (rec : SessionInfo) (h : findVal env.sessions g = some rec) :
    (updateLastActivity env g).sessions
      = setVal env.sessions g ⟨rec.sessionId, rec.projectPath, rec.groupName, env.now⟩ := by
  unfold updateLastActivity
  rw [h]
  show (saveState { env with
    sessions := setVal env.sessions g { rec with lastActivity := env.now } }).sessions = _
  rw [saveState_sessions]

theorem sessionUpdate_sessions_set (env : ClaudeEnv) (p : QueryParams)
    (ex : Option SessionInfo) (s : String) (hs : s ≠ "") :
    (sessionUpdate env p ex (some s)).sessions
      = setVal env.sessions p.groupId ⟨s, p.projectPath, p.groupName, env.now⟩ := by
  unfold sessionUpdate
  dsimp only
  rw [if_neg hs]
  show (setSession env p.groupId ⟨s, p.projectPath, p.groupName, env.now⟩).sessions = _
  unfold setSession
  rw [saveState_sessions]

theorem sessionUpdate_sessions_refresh (env : ClaudeEnv) (p : QueryParams)
    (rec : SessionInfo) (h : findVal env.sessions p.groupId = some rec) :
    (sessionUpdate env p (some rec) none).sessions
      = setVal env.sessions p.groupId
          ⟨rec.sessionId, rec.projectPath, rec.groupName, env.now⟩ := by
  unfold sessionUpdate
  dsimp only
  exact updateLastActivity_sessions_found env p.groupId rec h

theorem setSession_errorLog_extend (env : ClaudeEnv) (g : String) (i : SessionInfo) :
    ∃ tail, (setSession env g i).fs.errorLog = env.fs.errorLog ++ tail := by
  unfold setSession
  exact saveState_errorLog_extend _

theorem updateLastActivity_errorLog_extend (env : ClaudeEnv) (g : String) :
    ∃ tail, (updateLastActivity env g).fs.errorLog = env.fs.errorLog ++ tail := by
  unfold updateLastActivity
  split
  · exact saveState_errorLog_extend _
  · exact ⟨[], by simp⟩

theorem sessionUpdate_errorLog_extend (env : ClaudeEnv) (p : QueryParams)
    (ex : Option SessionInfo) (sid : Option String) :
    ∃ tail, (sessionUpdate env p ex sid).fs.errorLog = env.fs.errorLog ++ tail := by
  unfold sessionUpdate
  rcases sid with _ | s
  · rcases ex with _ | r
    · exact ⟨[], by simp⟩
    · exact updateLastActivity_errorLog_extend env p.groupId
  · by_cases hs : s = ""
    · rcases ex with _ | r
      · simp only [hs, if_pos rfl]
        exact ⟨[], by simp⟩
      · simp only [hs, if_pos rfl]
        exact updateLastActivity_errorLog_extend env p.groupId
    · simp only [if_neg hs]
      exact setSession_errorLog_extend env p.groupId ⟨s, p.projectPath, p.groupName, env.now⟩

/-- Normal-path unfolding of handleClaudeQuery: when the history directory
is available, both audit appends return normally, the backend is invoked
with the resume token computed from the current session record, the final
text is the stream's folded result, and the final environment is the
session-store update with some further audit-log bookkeeping. -/
theorem handleQuery_normal (backend : Option String → AgentStream)
    (env : ClaudeEnv) (p : QueryParams)
    (hfs : historyDir p.projectPath ∈ env.fs.dirs ∨ historyDir p.projectPath ∉ env.fs.mkdirFails) :
    ∃ fs1 fs2,
      appendToHistory env.fs p.projectPath
          ⟨p.messageId, env.now, p.groupId, p.groupName, "user", p.senderId,
            p.senderName, p.message⟩ = Except.ok fs1
      ∧ handleClaudeQuery backend env p
        = ⟨Except.ok (runStream (backend (resumeTokenOf (getSession env p.groupId)))).2,
           true,
           { sessionUpdate { env with fs := fs1 } p (getSession env p.groupId)
               (runStream (backend (resumeTokenOf (getSession env p.groupId)))).1
             with fs := fs2 }⟩
      ∧ ∃ tail, fs2.errorLog = env.fs.errorLog ++ tail := by
  obtain ⟨fs1, happ1, hdir1, hmk1, t1, hlog1⟩ := appendToHistory_ok env.fs p.projectPath
    ⟨p.messageId, env.now, p.groupId, p.groupName, "user", p.senderId,
      p.senderName, p.message⟩ hfs
  obtain ⟨S, sf, log, hshape⟩ := sessionUpdate_shape { env with fs := fs1 } p
    (getSession env p.groupId)
    (runStream (backend (resumeTokenOf (getSession env p.groupId)))).1
  have hdir2 : historyDir p.projectPath
      ∈ (sessionUpdate { env with fs := fs1 } p (getSession env p.groupId)
          (runStream (backend (resumeTokenOf (getSession env p.groupId)))).1).fs.dirs := by
    rw [hshape]
    exact hdir1
  obtain ⟨fs2, happ2, _, _, t3, hlog3⟩ := appendToHistory_ok _ p.projectPath
    ⟨"response-" ++ p.messageId,
      (sessionUpdate { env with fs := fs1 } p (getSession env p.groupId)
        (runStream (backend (resumeTokenOf (getSession env p.groupId)))).1).now,
      p.groupId, p.groupName, "assistant", "claude", "Claude",
      (runStream (backend (resumeTokenOf (getSession env p.groupId)))).2⟩
    (Or.inl hdir2)
  obtain ⟨t2, hlog2⟩ := sessionUpdate_errorLog_extend { env with fs := fs1 } p
    (getSession env p.groupId)
    (runStream (backend (resumeTokenOf (getSession env p.groupId)))).1
  refine ⟨fs1, fs2, happ1, ?_, ?_⟩
  · unfold handleClaudeQuery
    dsimp only
    rw [happ1]
    dsimp only
    rw [happ2]
  · refine ⟨t1 ++ t2 ++ t3, ?_⟩
    rw [hlog3, hlog2]
    show fs1.errorLog ++ t2 ++ t3 = _
    rw [hlog1]
    simp [List.append_assoc]

/-- C3: for a conversation with an existing SessionRecord (with a truthy
stored id), the next invocation passes exactly that record's sessionId as
the resume token to the agent backend; if the stream then yields a new
session id, the record is replaced wholesale — sessionId, projectPath,
groupName and lastActivity all rewritten from the current invocation, not
merged; if the stream yields no session id, the stored record keeps all
its fields and only lastActivity is refreshed to the current clock. -/
theorem C3_session_resume (backend : Option String → AgentStream)
    (env : ClaudeEnv) (p : QueryParams) (rec : SessionInfo)
    (hrec : getSession env p.groupId = some rec)
    (hne : rec.sessionId ≠ "")
    (hfs : historyDir p.projectPath ∈ env.fs.dirs
      ∨ historyDir p.projectPath ∉ env.fs.mkdirFails) :
    resumeTokenOf (getSession env p.groupId) = some rec.sessionId
    ∧ (∀ s, s ≠ "" → (runStream (backend (some rec.sessionId))).1 = some s →
        getSession (handleClaudeQuery backend env p).env p.groupId
          = some ⟨s, p.projectPath, p.groupName, env.now⟩)
    ∧ ((runStream (backend (some rec.sessionId))).1 = none →
        getSession (handleClaudeQuery backend env p).env p.groupId
          = some ⟨rec.sessionId, rec.projectPath, rec.groupName, env.now⟩) := by
  have htok : resumeTokenOf (getSession env p.groupId) = some rec.sessionId := by
    rw [hrec]
    simp [resumeTokenOf, hne]
  obtain ⟨fs1, fs2, happ1, hrun, _⟩ := handleQuery_normal backend env p hfs
  refine ⟨htok, ?_, ?_⟩
  · intro s hs hsid
    rw [hrun]
    show findVal (sessionUpdate { env with fs := fs1 } p (getSession env p.groupId)
        (runStream (backend (resumeTokenOf (getSession env p.groupId)))).1).sessions
      p.groupId = _
    rw [htok, hsid]
    rw [sessionUpdate_sessions_set { env with fs := fs1 } p (getSession env p.groupId) s hs]
    exact findVal_setVal_self _ _ _
  · intro hnone
    rw [hrun]
    show findVal (sessionUpdate { env with fs := fs1 } p (getSession env p.groupId)
        (runStream (backend (resumeTokenOf (getSession env p.groupId)))).1).sessions
      p.groupId = _
    rw [htok, hnone, hrec]
    rw [sessionUpdate_sessions_refresh { env with fs := fs1 } p rec hrec]
    exact findVal_setVal_self _ _ _

def recW : SessionInfo := ⟨"sess-1", "proj", "Claude: demo", 3⟩

def envC3 : ClaudeEnv :=
  ⟨[("g1", recW)], some [("g1", recW)], false, ⟨[historyDir "proj"], [], [], [], []⟩, 10⟩

def backendC3 : Option String → AgentStream :=
  fun _ => ⟨[AgentEvent.initEv "sess-2", AgentEvent.resultEv "done"], none⟩

def pC3 : QueryParams := ⟨"g1", "Claude: demo", "proj", "again", "Ann", "s1", "m2"⟩

/-- Witness for C3 at a concrete environment holding a session record. -/
theorem C3_session_resume_witness :
    resumeTokenOf (getSession envC3 pC3.groupId) = some recW.sessionId
    ∧ (∀ s, s ≠ "" → (runStream (backendC3 (some recW.sessionId))).1 = some s →
        getSession (handleClaudeQuery backendC3 envC3 pC3).env pC3.groupId
          = some ⟨s, pC3.projectPath, pC3.groupName, envC3.now⟩)
    ∧ ((runStream (backendC3 (some recW.sessionId))).1 = none →
        getSession (handleClaudeQuery backendC3 envC3 pC3).env pC3.groupId
          = some ⟨recW.sessionId, recW.projectPath, recW.groupName, envC3.now⟩) :=
  C3_session_resume backendC3 envC3 pC3 recW (by rfl) (by decide) (Or.inl (by decide))

theorem sessionUpdate_stateFile_set (env : ClaudeEnv) (p : QueryParams)
    (ex : Option SessionInfo) (s : String) (hs : s ≠ "")
    (hp : env.persistFails = false) :
    (sessionUpdate env p ex (some s)).stateFile
      = some (sessionUpdate env p ex (some s)).sessions := by
  unfold sessionUpdate
  dsimp only
  rw [if_neg hs]
  unfold setSession
  have hp2 : ({ env with sessions := setVal env.sessions p.groupId ⟨s, p.projectPath, p.groupName, env.now⟩ } : ClaudeEnv).persistFails = false := hp
  rw [saveState_stateFile_ok _ hp2]
  rw [saveState_sessions]

/-- C6: when the backend call streams a failure, the pipeline substitutes
the formatted error string for the result and completes normally (no
exception escapes, so the job is still delivered and there is no retry);
the backend was invoked exactly this once; any session id captured from
the events consumed before the failure is kept — the record is written
with it — and, when the disk write works, persisted to the session store;
and the conversation's worker model lets the next queued job finish and
start regardless, so the queue continues after the failed job. -/
theorem C6_failure_handling (backend : Option String → AgentStream)
    (env : ClaudeEnv) (p : QueryParams) (evs : List AgentEvent) (err : String)
    (hb : backend (resumeTokenOf (getSession env p.groupId)) = ⟨evs, some err⟩)
    (hfs : historyDir p.projectPath ∈ env.fs.dirs
      ∨ historyDir p.projectPath ∉ env.fs.mkdirFails) :
    (handleClaudeQuery backend env p).result = Except.ok ("❌ Error: " ++ err)
    ∧ (handleClaudeQuery backend env p).backendInvoked = true
    ∧ (∀ s, s ≠ "" → lastOpt (evs.filterMap initIdOf) = some s →
        getSession (handleClaudeQuery backend env p).env p.groupId
          = some ⟨s, p.projectPath, p.groupName, env.now⟩
        ∧ (env.persistFails = false →
            (handleClaudeQuery backend env p).env.stateFile
              = some (handleClaudeQuery backend env p).env.sessions))
    ∧ (∀ (sub w d : List Job) (j1 j2 : Job),
        WorkerStep 1 ⟨sub, j2 :: w, [j1], d⟩ ⟨sub, j2 :: w, [], d ++ [j1]⟩
        ∧ WorkerStep 1 ⟨sub, j2 :: w, [], d ++ [j1]⟩ ⟨sub, w, [j2], d ++ [j1]⟩) := by
  obtain ⟨fs1, fs2, happ1, hrun, _⟩ := handleQuery_normal backend env p hfs
  have hres : runStream (backend (resumeTokenOf (getSession env p.groupId)))
      = (lastOpt (evs.filterMap initIdOf), "❌ Error: " ++ err) := by
    rw [hb]
    unfold runStream
    dsimp only
    rw [foldEvents_eq]
    rw [elim_none_some]
  refine ⟨?_, ?_, ?_, ?_⟩
  · rw [hrun]
    show Except.ok (runStream (backend (resumeTokenOf (getSession env p.groupId)))).2 = _
    rw [hres]
  · rw [hrun]
  · intro s hs hsid
    constructor
    · rw [hrun]
      show findVal (sessionUpdate { env with fs := fs1 } p (getSession env p.groupId)
          (runStream (backend (resumeTokenOf (getSession env p.groupId)))).1).sessions
        p.groupId = _
      rw [hres]
      dsimp only
      rw [hsid]
      rw [sessionUpdate_sessions_set { env with fs := fs1 } p (getSession env p.groupId) s hs]
      exact findVal_setVal_self _ _ _
    · intro hp
      rw [hrun]
      show (sessionUpdate { env with fs := fs1 } p (getSession env p.groupId)
          (runStream (backend (resumeTokenOf (getSession env p.groupId)))).1).stateFile
        = some (sessionUpdate { env with fs := fs1 } p (getSession env p.groupId)
          (runStream (backend (resumeTokenOf (getSession env p.groupId)))).1).sessions
      rw [hres]
      dsimp only
      rw [hsid]
      exact sessionUpdate_stateFile_set { env with fs := fs1 } p
        (getSession env p.groupId) s hs hp
  · intro sub w d j1 j2
    exact ⟨WorkerStep.finish j1, WorkerStep.start j2 Nat.zero_lt_one⟩

def envC6 : ClaudeEnv :=
  ⟨[], some [], false, ⟨[historyDir "proj"], [], [], [], []⟩, 5⟩

def backendC6 : Option String → AgentStream :=
  fun _ => ⟨[AgentEvent.initEv "sess-9"], some "boom"⟩

def pC6 : QueryParams := ⟨"g2", "Claude: x", "proj", "msg", "Ann", "s1", "m3"⟩

/-- Witness for C6 at a concrete failing invocation. -/
theorem C6_failure_handling_witness :
    (handleClaudeQuery backendC6 envC6 pC6).result = Except.ok ("❌ Error: " ++ "boom")
    ∧ (handleClaudeQuery backendC6 envC6 pC6).backendInvoked = true
    ∧ (∀ s, s ≠ "" → lastOpt (([AgentEvent.initEv "sess-9"]).filterMap initIdOf) = some s →
        getSession (handleClaudeQuery backendC6 envC6 pC6).env pC6.groupId
          = some ⟨s, pC6.projectPath, pC6.groupName, envC6.now⟩
        ∧ (envC6.persistFails = false →
            (handleClaudeQuery backendC6 envC6 pC6).env.stateFile
              = some (handleClaudeQuery backendC6 envC6 pC6).env.sessions))
    ∧ (∀ (sub w d : List Job) (j1 j2 : Job),
        WorkerStep 1 ⟨sub, j2 :: w, [j1], d⟩ ⟨sub, j2 :: w, [], d ++ [j1]⟩
        ∧ WorkerStep 1 ⟨sub, j2 :: w, [], d ++ [j1]⟩ ⟨sub, w, [j2], d ++ [j1]⟩) :=
  C6_failure_handling backendC6 envC6 pC6 [AgentEvent.initEv "sess-9"] "boom"
    (by rfl) (Or.inl (by decide))

theorem setSession_stateFile_fail (env : ClaudeEnv) (g : String) (i : SessionInfo)
    (hp : env.persistFails = true) :
    (setSession env g i).stateFile = env.stateFile := by
  unfold setSession
  exact saveState_stateFile_fail _ hp

theorem updateLastActivity_stateFile_fail (env : ClaudeEnv) (g : String)
    (hp : env.persistFails = true) :
    (updateLastActivity env g).stateFile = env.stateFile := by
  unfold updateLastActivity
  split
  · exact saveState_stateFile_fail _ hp
  · rfl

theorem sessionUpdate_stateFile_fail (env : ClaudeEnv) (p : QueryParams)
    (ex : Option SessionInfo) (sid : Option String)
    (hp : env.persistFails = true) :
    (sessionUpdate env p ex sid).stateFile = env.stateFile := by
  unfold sessionUpdate
  rcases sid with _ | s
  · rcases ex with _ | r
    · rfl
    · exact updateLastActivity_stateFile_fail env p.groupId hp
  · by_cases hs : s = ""
    · rcases ex with _ | r
      · simp only [hs, if_pos rfl]
        rfl
      · simp only [hs, if_pos rfl]
        exact updateLastActivity_stateFile_fail env p.groupId hp
    · simp only [if_neg hs]
      exact setSession_stateFile_fail env p.groupId
        ⟨s, p.projectPath, p.groupName, env.now⟩ hp

def envC8 : ClaudeEnv := ⟨[], some [], false, ⟨[], [], [historyDir "proj"], [], []⟩, 4⟩

def backendC8 : Option String → AgentStream :=
  fun _ => ⟨[AgentEvent.resultEv "never delivered"], none⟩

def pC8 : QueryParams := ⟨"g3", "Claude: y", "proj", "text", "Ann", "s1", "m4"⟩

/-- Counterexample to C8: when creating the audit log's directory fails
(mkdirSync throws, and it sits outside the try/catch of appendToHistory),
the exception escapes the pipeline before the backend is ever invoked —
the failure is not ignored and does prevent the invocation, contradicting
the claim's parenthetical. -/
theorem C8_counterexample :
    (handleClaudeQuery backendC8 envC8 pC8).result
      = Except.error ("ENOENT: mkdir failed for " ++ historyDir "proj")
    ∧ (handleClaudeQuery backendC8 envC8 pC8).backendInvoked = false
    ∧ (handleClaudeQuery backendC8 envC8 pC8).env = envC8 :=
  ⟨rfl, rfl, rfl⟩

/-- C8 amended: appending to the audit log is best-effort only at the
file-write level — when the log's directory exists or can be created, a
failing appendFileSync is logged and swallowed and the pipeline still
invokes the backend and returns the stream's final text; a failure to
create the log's directory, however, escapes and aborts the job before
the backend is invoked, leaving the state untouched (the worker catches
it and reports an error for that job). A session/registry persistence
failure is logged and swallowed: the response is still produced and the
persisted snapshot is simply left stale. -/
theorem C8_audit_best_effort (backend : Option String → AgentStream)
    (env : ClaudeEnv) (p : QueryParams) :
    ((historyDir p.projectPath ∈ env.fs.dirs
        ∨ historyDir p.projectPath ∉ env.fs.mkdirFails) →
      (handleClaudeQuery backend env p).backendInvoked = true
      ∧ (handleClaudeQuery backend env p).result
          = Except.ok (runStream (backend (resumeTokenOf (getSession env p.groupId)))).2
      ∧ ∃ tail, (handleClaudeQuery backend env p).env.fs.errorLog
          = env.fs.errorLog ++ tail)
    ∧ (historyDir p.projectPath ∉ env.fs.dirs →
        historyDir p.projectPath ∈ env.fs.mkdirFails →
      (handleClaudeQuery backend env p).backendInvoked = false
      ∧ (handleClaudeQuery backend env p).result
          = Except.error ("ENOENT: mkdir failed for " ++ historyDir p.projectPath)
      ∧ (handleClaudeQuery backend env p).env = env)
    ∧ ((historyDir p.projectPath ∈ env.fs.dirs
        ∨ historyDir p.projectPath ∉ env.fs.mkdirFails) →
        env.persistFails = true →
      (handleClaudeQuery backend env p).env.stateFile = env.stateFile
      ∧ (handleClaudeQuery backend env p).result
          = Except.ok (runStream (backend (resumeTokenOf (getSession env p.groupId)))).2) := by
  refine ⟨?_, ?_, ?_⟩
  · intro hfs
    obtain ⟨fs1, fs2, happ1, hrun, tail, hlog⟩ := handleQuery_normal backend env p hfs
    rw [hrun]
    exact ⟨rfl, rfl, tail, hlog⟩
  · intro hd hmk
    unfold handleClaudeQuery
    dsimp only
    have herr : appendToHistory env.fs p.projectPath
        ⟨p.messageId, env.now, p.groupId, p.groupName, "user", p.senderId,
          p.senderName, p.message⟩
        = Except.error ("ENOENT: mkdir failed for " ++ historyDir p.projectPath) := by
      unfold appendToHistory
      rw [if_neg hd, if_pos hmk]
    rw [herr]
    exact ⟨rfl, rfl, rfl⟩
  · intro hfs hp
    obtain ⟨fs1, fs2, happ1, hrun, _⟩ := handleQuery_normal backend env p hfs
    rw [hrun]
    constructor
    · show (sessionUpdate { env with fs := fs1 } p (getSession env p.groupId)
          (runStream (backend (resumeTokenOf (getSession env p.groupId)))).1).stateFile
        = env.stateFile
      exact sessionUpdate_stateFile_fail { env with fs := fs1 } p _ _ hp
    · rfl

def envC8w : ClaudeEnv :=
  ⟨[("g3", recW)], some [("g3", recW)], true, ⟨[historyDir "proj"], [], [], [], []⟩, 6⟩

/-- Witness for the amended C8: a concrete environment whose persistence
write fails still produces the stream's result text and leaves the
persisted snapshot unchanged, and the backend is invoked. -/
theorem C8_audit_best_effort_witness :
    ((handleClaudeQuery backendC8 envC8w pC8).backendInvoked = true
      ∧ (handleClaudeQuery backendC8 envC8w pC8).result
          = Except.ok (runStream (backendC8 (resumeTokenOf (getSession envC8w pC8.groupId)))).2
      ∧ ∃ tail, (handleClaudeQuery backendC8 envC8w pC8).env.fs.errorLog
          = envC8w.fs.errorLog ++ tail)
    ∧ ((handleClaudeQuery backendC8 envC8w pC8).env.stateFile = envC8w.stateFile
      ∧ (handleClaudeQuery backendC8 envC8w pC8).result
          = Except.ok (runStream (backendC8 (resumeTokenOf (getSession envC8w pC8.groupId)))).2) :=
  ⟨(C8_audit_best_effort backendC8 envC8w pC8).1 (Or.inl (by decide)),
   (C8_audit_best_effort backendC8 envC8w pC8).2.2 (Or.inl (by decide)) (by rfl)⟩

/- ### C2: first-claim project registry -/

theorem getQueueState_registry (st : SysState) (gid : String) :
    (getQueueState st gid).2.registry = st.registry := by
  unfold getQueueState
  split <;> rfl

theorem getQueueState_dirs (st : SysState) (gid : String) :
    (getQueueState st gid).2.dirs = st.dirs := by
  unfold getQueueState
  split <;> rfl

theorem ensureProjectDir_registry (st : SysState) (path : String) :
    (ensureProjectDir st path).registry = st.registry := by
  unfold ensureProjectDir
  split <;> rfl

theorem ensureProjectDir_queues (st : SysState) (path : String) :
    (ensureProjectDir st path).queues = st.queues := by
  unfold ensureProjectDir
  split <;> rfl

theorem routeAdmit_registry (maxQ : Nat) (st : SysState) (ch : ChatInfo) (m : MsgInfo) :
    (routeAdmit maxQ st ch m).2.registry = st.registry := by
  unfold routeAdmit
  dsimp only
  split
  · exact getQueueState_registry st ch.chatId
  · show (ensureProjectDir (getQueueState st ch.chatId).2 (getProjectPath ch.name)).registry
      = st.registry
    rw [ensureProjectDir_registry]
    exact getQueueState_registry st ch.chatId

theorem routeAdmit_result_not_conflict (maxQ : Nat) (st : SysState)
    (ch : ChatInfo) (m : MsgInfo) (pn : String) :
    (routeAdmit maxQ st ch m).1 ≠ RouteResult.conflictNotice pn := by
  unfold routeAdmit
  dsimp only
  split
  · intro h
    cases h
  · intro h
    cases h

/-- The registry after routeMessage: either untouched, or extended at the
message's own sanitized name — and the latter only when that name was
unclaimed (or held the JS-falsy empty owner). -/
theorem routeMessage_registry (maxQ : Nat) (st : SysState) (ch : ChatInfo) (m : MsgInfo) :
    (routeMessage maxQ st ch m).2.registry = st.registry
    ∨ ((routeMessage maxQ st ch m).2.registry
        = setVal st.registry (sanitizeProjectName ch.name) ch.chatId
      ∧ (findVal st.registry (sanitizeProjectName ch.name) = none
        ∨ findVal st.registry (sanitizeProjectName ch.name) = some "")) := by
  unfold routeMessage
  dsimp only
  split
  · exact Or.inl rfl
  · split
    · exact Or.inl rfl
    · split
      · exact Or.inl rfl
      · split
        · rename_i owner heq
          split
          · split
            · exact Or.inl rfl
            · rw [routeAdmit_registry]
              exact Or.inl rfl
          · rename_i hownr
            have hown : owner = "" := by
              by_contra hc
              exact hownr hc
            rw [routeAdmit_registry]
            refine Or.inr ⟨rfl, Or.inr ?_⟩
            rw [heq, hown]
        · rename_i heq
          rw [routeAdmit_registry]
          exact Or.inr ⟨rfl, Or.inl heq⟩

/-- C2: the project-name claim registry is first-writer-wins. (ii) an
entry with a truthy owner survives every routeMessage verbatim; (iii) an
eligible message from a conversation other than the registered owner is
answered with the conflict notice and the whole state is returned
unchanged — no registry write, no queue fetched or created, no project
directory created; (iv) a message from the owning conversation is never
rejected by the conflict check; (i) an eligible message for an unclaimed
sanitized name registers the sender as its owner. -/
theorem C2_first_claim (maxQ : Nat) (st : SysState) (ch : ChatInfo) (m : MsgInfo) :
    (∀ pr own, own ≠ "" → findVal st.registry pr = some own →
        findVal (routeMessage maxQ st ch m).2.registry pr = some own)
    ∧ (∀ own, findVal st.registry (sanitizeProjectName ch.name) = some own →
        own ≠ "" → own ≠ ch.chatId →
        ch.isGroup = true → nameHasTag ch.name = true → m.hasMedia = false →
        jsTrim m.body ≠ "" →
        routeMessage maxQ st ch m
          = (RouteResult.conflictNotice (sanitizeProjectName ch.name), st))
    ∧ (∀ own, findVal st.registry (sanitizeProjectName ch.name) = some own →
        own = ch.chatId →
        ∀ pn, (routeMessage maxQ st ch m).1 ≠ RouteResult.conflictNotice pn)
    ∧ (findVal st.registry (sanitizeProjectName ch.name) = none →
        ch.isGroup = true → nameHasTag ch.name = true → m.hasMedia = false →
        jsTrim m.body ≠ "" →
        findVal (routeMessage maxQ st ch m).2.registry (sanitizeProjectName ch.name)
          = some ch.chatId) := by
  refine ⟨?_, ?_, ?_, ?_⟩
  · intro pr own hown hf
    rcases routeMessage_registry maxQ st ch m with h | ⟨h, hside⟩
    · rw [h]
      exact hf
    · rw [h]
      by_cases hpr : pr = sanitizeProjectName ch.name
      · subst hpr
        rcases hside with hn | he
        · rw [hf] at hn
          cases hn
        · rw [hf] at he
          cases he
          exact absurd rfl hown
      · rw [findVal_setVal_other _ _ _ _ hpr]
        exact hf
  · intro own hf hown hneq hg ht hm hb
    unfold routeMessage
    dsimp only
    rw [if_neg (by simp [hg, ht]), if_neg (by simp [hm]), if_neg (by simpa using hb), hf]
    dsimp only
    rw [if_pos hown, if_pos hneq]
  · intro own hf hown pn
    unfold routeMessage
    dsimp only
    split
    · intro h
      cases h
    · split
      · intro h
        cases h
      · split
        · intro h
          cases h
        · split
          · rename_i owner heq
            rw [hf] at heq
            cases heq
            split
            · split
              · rename_i hneq
                rw [hown] at hneq
                exact absurd rfl hneq
              · exact routeAdmit_result_not_conflict maxQ st ch m pn
            · exact routeAdmit_result_not_conflict maxQ _ ch m pn
          · exact routeAdmit_result_not_conflict maxQ _ ch m pn
  · intro hnone hg ht hm hb
    unfold routeMessage
    dsimp only
    rw [if_neg (by simp [hg, ht]), if_neg (by simp [hm]), if_neg (by simpa using hb), hnone]
    dsimp only
    rw [routeAdmit_registry]
    show findVal (setVal st.registry (sanitizeProjectName ch.name) ch.chatId)
      (sanitizeProjectName ch.name) = some ch.chatId
    exact findVal_setVal_self _ _ _

def stC2 : SysState := ⟨[("demo", "g-owner")], [], []⟩

def chC2 : ChatInfo := ⟨true, "Claude: demo!!", "g-other"⟩

def mC2 : MsgInfo := ⟨false, "hello", "m9", "s1", "Ann"⟩

/-- Witness for C2: "Claude: demo!!" sanitizes to "demo", already owned by
another conversation — the message is rejected with the conflict notice,
the state is returned unchanged, and the registry entry survives. -/
theorem C2_first_claim_witness :
    routeMessage 5 stC2 chC2 mC2
      = (RouteResult.conflictNotice (sanitizeProjectName chC2.name), stC2)
    ∧ findVal (routeMessage 5 stC2 chC2 mC2).2.registry "demo" = some "g-owner" :=
  ⟨(C2_first_claim 5 stC2 chC2 mC2).2.1 "g-owner" (by decide) (by decide) (by decide)
      rfl (by decide) rfl (by decide),
   (C2_first_claim 5 stC2 chC2 mC2).1 "demo" "g-owner" (by decide) (by decide)⟩

/- ### C4: admission limit counts only the waiting jobs -/

theorem getQueueState_found (st : SysState) (gid : String) (q : QueueState)
    (h : findVal st.queues gid = some q) : getQueueState st gid = (q, st) := by
  unfold getQueueState
  rw [h]

/-- When the conversation owns its claim, its queue exists, and the
waiting count is below the maximum, routeMessage admits the message: it
returns the enqueued job and appends it to the queue's waiting list. -/
theorem routeMessage_admits (maxQ : Nat) (st : SysState) (ch : ChatInfo)
    (m : MsgInfo) (q : QueueState)
    (hg : ch.isGroup = true) (ht : nameHasTag ch.name = true)
    (hm : m.hasMedia = false) (hb : jsTrim m.body ≠ "")
    (hown : findVal st.registry (sanitizeProjectName ch.name) = some ch.chatId)
    (hcid : ch.chatId ≠ "")
    (hq : findVal st.queues ch.chatId = some q)
    (hlt : q.waiting.length < maxQ) :
    (routeMessage maxQ st ch m).1
      = RouteResult.enqueued ⟨m.messageId, m.body, m.senderId, m.senderName⟩
    ∧ findVal (routeMessage maxQ st ch m).2.queues ch.chatId
      = some (enqueueJob q ⟨m.messageId, m.body, m.senderId, m.senderName⟩) := by
  unfold routeMessage
  dsimp only
  rw [if_neg (by simp [hg, ht]), if_neg (by simp [hm]), if_neg (by simpa using hb), hown]
  dsimp only
  rw [if_pos hcid, if_neg (by simp)]
  unfold routeAdmit
  rw [getQueueState_found st ch.chatId q hq]
  dsimp only
  rw [if_neg (by omega)]
  refine ⟨rfl, ?_⟩
  show findVal (setVal (ensureProjectDir st (getProjectPath ch.name)).queues ch.chatId
    (enqueueJob q ⟨m.messageId, m.body, m.senderId, m.senderName⟩)) ch.chatId = _
  rw [ensureProjectDir_queues]
  exact findVal_setVal_self _ _ _

/-- When the waiting count has reached the maximum, routeMessage rejects
with the queue-full notice and returns the state unchanged: the message is
dropped, not buffered. -/
theorem routeMessage_full (maxQ : Nat) (st : SysState) (ch : ChatInfo)
    (m : MsgInfo) (q : QueueState)
    (hg : ch.isGroup = true) (ht : nameHasTag ch.name = true)
    (hm : m.hasMedia = false) (hb : jsTrim m.body ≠ "")
    (hown : findVal st.registry (sanitizeProjectName ch.name) = some ch.chatId)
    (hcid : ch.chatId ≠ "")
    (hq : findVal st.queues ch.chatId = some q)
    (hge : maxQ ≤ q.waiting.length) :
    routeMessage maxQ st ch m = (RouteResult.queueFullNotice, st) := by
  unfold routeMessage
  dsimp only
  rw [if_neg (by simp [hg, ht]), if_neg (by simp [hm]), if_neg (by simpa using hb), hown]
  dsimp only
  rw [if_pos hcid, if_neg (by simp)]
  unfold routeAdmit
  rw [getQueueState_found st ch.chatId q hq]
  dsimp only
  rw [if_pos hge]

def chC4 : ChatInfo := ⟨true, "Claude: demo", "g1"⟩

def mC4a : MsgInfo := ⟨false, "first", "m1", "s1", "Ann"⟩

def mC4b : MsgInfo := ⟨false, "second", "m2", "s1", "Ann"⟩

def jC4a : Job := ⟨"m1", "first", "s1", "Ann"⟩

def jC4b : Job := ⟨"m2", "second", "s1", "Ann"⟩

def stC4a : SysState := (routeMessage 1 ⟨[], [], []⟩ chC4 mC4a).2

def qC4run : QueueState := ⟨[jC4a], [], [jC4a], []⟩

def stC4b : SysState := { stC4a with queues := setVal stC4a.queues "g1" qC4run }

/-- Counterexample to C4: with configured maximum N = 1, the reachable
state in which the first job is in flight (pending+in-flight = 1, not
below N) still ADMITS the next message, because the source checks only
p-queue's `size` (the waiting jobs) and never counts the in-flight one —
the claim's admission criterion, and spec Scenario D, fail on the code. -/
theorem C4_counterexample :
    SysReach 1 stC4b
    ∧ findVal stC4b.queues "g1" = some qC4run
    ∧ qC4run.waiting.length + qC4run.running.length = 1
    ∧ (routeMessage 1 stC4b chC4 mC4b).1 = RouteResult.enqueued jC4b := by
  refine ⟨?_, by decide, by decide, by decide⟩
  have h0 : SysReach 1 ⟨[], [], []⟩ := SysReach.init
  have h1 : SysReach 1 stC4a :=
    SysReach.step h0 (SysStep.arrive ⟨[], [], []⟩ chC4 mC4a)
  have hw : WorkerStep 1 ⟨[jC4a], [jC4a], [], []⟩ qC4run := by
    show WorkerStep 1 ⟨[jC4a], jC4a :: [], [], []⟩ ⟨[jC4a], [], [] ++ [jC4a], []⟩
    exact WorkerStep.start jC4a Nat.zero_lt_one
  have hfind : findVal stC4a.queues "g1" = some ⟨[jC4a], [jC4a], [], []⟩ := by decide
  exact SysReach.step h1 (SysStep.work stC4a "g1" hfind hw)

/-- C4 amended: with configured queue maximum N, admission accepts a new
message exactly when the conversation's count of WAITING (queued, not yet
started) jobs is below N — the in-flight job is not counted, so one
in-flight job plus up to N waiting jobs can coexist; a rejected message
gets the queue-full notice and is dropped with the state unchanged (not
retried, not buffered); and each start move hands a waiting job to the
worker, shrinking the waiting count by one, after which admission for a
previously full queue accepts again. -/
theorem C4_admission (maxQ : Nat) (st : SysState) (ch : ChatInfo)
    (m : MsgInfo) (q : QueueState)
    (hg : ch.isGroup = true) (ht : nameHasTag ch.name = true)
    (hm : m.hasMedia = false) (hb : jsTrim m.body ≠ "")
    (hown : findVal st.registry (sanitizeProjectName ch.name) = some ch.chatId)
    (hcid : ch.chatId ≠ "")
    (hq : findVal st.queues ch.chatId = some q) :
    ((∃ j, (routeMessage maxQ st ch m).1 = RouteResult.enqueued j)
      ↔ q.waiting.length < maxQ)
    ∧ (maxQ ≤ q.waiting.length →
        routeMessage maxQ st ch m = (RouteResult.queueFullNotice, st))
    ∧ (∀ (sub w r d : List Job) (j : Job) (hr : r.length < 1),
        WorkerStep 1 ⟨sub, j :: w, r, d⟩ ⟨sub, w, r ++ [j], d⟩
        ∧ (⟨sub, w, r ++ [j], d⟩ : QueueState).waiting.length + 1
            = (⟨sub, j :: w, r, d⟩ : QueueState).waiting.length)
    ∧ (∀ q', WorkerStep 1 q q' → q'.waiting.length < maxQ →
        (routeMessage maxQ { st with queues := setVal st.queues ch.chatId q' } ch m).1
          = RouteResult.enqueued ⟨m.messageId, m.body, m.senderId, m.senderName⟩) := by
  refine ⟨⟨?_, ?_⟩, ?_, ?_, ?_⟩
  · intro ⟨j, hj⟩
    by_contra hge
    rw [(routeMessage_full maxQ st ch m q hg ht hm hb hown hcid hq (by omega))] at hj
    cases hj
  · intro hlt
    exact ⟨_, (routeMessage_admits maxQ st ch m q hg ht hm hb hown hcid hq hlt).1⟩
  · intro hge
    exact routeMessage_full maxQ st ch m q hg ht hm hb hown hcid hq hge
  · intro sub w r d j hr
    exact ⟨WorkerStep.start j hr, rfl⟩
  · intro q' hstep hlt
    have hq' : findVal ({ st with queues := setVal st.queues ch.chatId q' } : SysState).queues
        ch.chatId = some q' := findVal_setVal_self _ _ _
    exact (routeMessage_admits maxQ { st with queues := setVal st.queues ch.chatId q' }
      ch m q' hg ht hm hb hown hcid hq' hlt).1

def stC4w : SysState :=
  ⟨[("demo", "g1")], [("g1", emptyQueue)], []⟩

/-- Witness for the amended C4 at a concrete owned conversation with an
existing empty queue and maximum 1. -/
theorem C4_admission_witness :
    (((∃ j, (routeMessage 1 stC4w chC4 mC4b).1 = RouteResult.enqueued j)
      ↔ emptyQueue.waiting.length < 1)
    ∧ (1 ≤ emptyQueue.waiting.length →
        routeMessage 1 stC4w chC4 mC4b = (RouteResult.queueFullNotice, stC4w))
    ∧ (∀ (sub w r d : List Job) (j : Job) (hr : r.length < 1),
        WorkerStep 1 ⟨sub, j :: w, r, d⟩ ⟨sub, w, r ++ [j], d⟩
        ∧ (⟨sub, w, r ++ [j], d⟩ : QueueState).waiting.length + 1
            = (⟨sub, j :: w, r, d⟩ : QueueState).waiting.length)
    ∧ (∀ q', WorkerStep 1 emptyQueue q' → q'.waiting.length < 1 →
        (routeMessage 1 { stC4w with queues := setVal stC4w.queues chC4.chatId q' } chC4 mC4b).1
          = RouteResult.enqueued ⟨mC4b.messageId, mC4b.body, mC4b.senderId, mC4b.senderName⟩)) :=
  C4_admission 1 stC4w chC4 mC4b emptyQueue rfl (by decide) rfl (by decide)
    (by decide) (by decide) (by decide)

/- ### C9: the sanitization steps as the spec words them -/

/-- Step 1 as the claim words it: strip the fixed "Claude:" PREFIX (only
when the name starts with it). -/
def stripTagAtStart (s : List Char) : List Char :=
  if startsWithTag claudeTag s then s.drop claudeTag.length else s

/-- One fold step of the spec-side run collapsing; the flag records
whether the character to the right belongs to a run. -/
def specCollapseStep (p : Char → Bool) (d : Char) (c : Char)
    (st : Bool × List Char) : Bool × List Char :=
  if p c then (true, if st.1 then st.2 else d :: st.2) else (false, c :: st.2)

/-- Spec-side formulation of "replace each maximal run of p-characters
with the single character d", as a right fold. -/
def specCollapse (p : Char → Bool) (d : Char) (s : List Char) : List Char :=
  (s.foldr (specCollapseStep p d) (false, [])).2

/-- The claim's exact step sequence: strip the prefix, trim, remove
characters outside alnum/dash/underscore/whitespace, whitespace runs to
single dashes, collapse dash runs, remove end dashes. -/
def sanitizeSpecSteps (s : List Char) : List Char :=
  trimDashEnds
    (specCollapse isDashC '-'
      (specCollapse isSpaceJS '-'
        ((trimChars (stripTagAtStart s)).filter isKeptChar)))

/-- The amended step sequence: identical except that step 1 removes the
first OCCURRENCE of "Claude:" anywhere in the name. -/
def sanitizeSpecAmended (s : List Char) : List Char :=
  trimDashEnds
    (specCollapse isDashC '-'
      (specCollapse isSpaceJS '-'
        ((trimChars (removeFirstOcc claudeTag s)).filter isKeptChar)))

theorem foldr_specCollapseStep_flag (p : Char → Bool) (d : Char) (x : Char)
    (xs : List Char) :
    (List.foldr (specCollapseStep p d) (false, []) (x :: xs)).1 = p x := by
  rw [List.foldr_cons]
  unfold specCollapseStep
  cases hp : p x <;> simp [hp]

/-- One cons step of the spec-side collapse fold. -/
theorem specCollapse_cons (p : Char → Bool) (d c : Char) (cs : List Char) :
    specCollapse p d (c :: cs)
      = if p c then
          (if (List.foldr (specCollapseStep p d) (false, []) cs).1 then specCollapse p d cs
           else d :: specCollapse p d cs)
        else c :: specCollapse p d cs := by
  have heval : ∀ st : Bool × List Char, specCollapseStep p d c st
      = if p c then (true, if st.1 then st.2 else d :: st.2) else (false, c :: st.2) :=
    fun _ => rfl
  show (specCollapseStep p d c (List.foldr (specCollapseStep p d) (false, []) cs)).2 = _
  rw [heval]
  cases hp : p c
  · simp [hp, specCollapse]
  · cases hf : (List.foldr (specCollapseStep p d) (false, []) cs).1 <;>
      simp [hp, hf, specCollapse]

/-- The source's run collapsing and the spec-side fold agree on every
string. -/
theorem collapseRuns_eq_specCollapse (p : Char → Bool) (d : Char) :
    ∀ s, collapseRuns p d s = specCollapse p d s := by
  intro s
  induction s with
  | nil => rfl
  | cons c cs ih =>
    cases cs with
    | nil =>
      cases hp : p c <;> simp [collapseRuns, specCollapse, specCollapseStep, hp]
    | cons c2 cs2 =>
      have hflag := foldr_specCollapseStep_flag p d c2 cs2
      rw [specCollapse_cons p d c (c2 :: cs2), hflag]
      cases hp : p c with
      | false => simp [collapseRuns, hp, ih]
      | true =>
        cases hp2 : p c2 with
        | true => simp [collapseRuns, hp, hp2, ih]
        | false => simp [collapseRuns, hp, hp2, ih]

theorem matchTag_of_startsWith :
    ∀ (pat s : List Char), startsWithTag pat s = true →
      matchTag pat s = some (s.drop pat.length) := by
  intro pat
  induction pat with
  | nil =>
    intro s h
    simp [matchTag]
  | cons p ps ih =>
    intro s h
    cases s with
    | nil => simp [startsWithTag] at h
    | cons c cs =>
      simp only [startsWithTag, Bool.and_eq_true, decide_eq_true_eq] at h
      obtain ⟨hpc, hrest⟩ := h
      simp [matchTag, hpc, ih cs hrest]

theorem removeFirstOcc_of_startsWith (pat s : List Char)
    (h : startsWithTag pat s = true) :
    removeFirstOcc pat s = s.drop pat.length := by
  cases s with
  | nil => simp [removeFirstOcc]
  | cons c cs =>
    unfold removeFirstOcc
    rw [matchTag_of_startsWith pat (c :: cs) h]

def exC9 : String := "aClaude: b"

/-- Counterexample to C9: the source removes the first OCCURRENCE of
"Claude:" anywhere in the name, not a prefix. On "aClaude: b" (whose
"Claude:" occurrence is not a prefix) the code yields "a-b", while the
claim's exact step sequence (prefix strip) yields "aClaude-b". -/
theorem C9_counterexample :
    sanitizeProjectName exC9 = "a-b"
    ∧ sanitizeSpecSteps exC9.data = ("aClaude-b").data
    ∧ sanitizeChars exC9.data ≠ sanitizeSpecSteps exC9.data := by
  refine ⟨by decide, by decide, by decide⟩

/-- C9 amended: the derived project name is computed by exactly these
steps in order — remove the first occurrence of "Claude:" (rather than
strip it as a prefix; on names that do start with "Claude:" the two
coincide), trim surrounding whitespace, remove every character outside
alphanumerics/dash/underscore/whitespace, replace each maximal whitespace
run with a single dash, collapse runs of dashes to one dash, and remove
leading and trailing dashes; in particular "Claude: My App!" yields
"My-App". -/
theorem C9_sanitize_steps :
    (∀ s : List Char, sanitizeChars s = sanitizeSpecAmended s)
    ∧ (∀ s : List Char, startsWithTag claudeTag s = true →
        sanitizeSpecSteps s = sanitizeChars s)
    ∧ sanitizeProjectName "Claude: My App!" = "My-App" := by
  refine ⟨?_, ?_, by decide⟩
  · intro s
    unfold sanitizeChars sanitizeSpecAmended
    rw [collapseRuns_eq_specCollapse, collapseRuns_eq_specCollapse]
  · intro s h
    unfold sanitizeChars sanitizeSpecSteps stripTagAtStart
    rw [if_pos h, removeFirstOcc_of_startsWith claudeTag s h]
    rw [collapseRuns_eq_specCollapse, collapseRuns_eq_specCollapse]

/-- Witness for the amended C9 at a concrete tagged name. -/
theorem C9_sanitize_steps_witness :
    sanitizeChars ("Claude: a b").data = sanitizeSpecAmended ("Claude: a b").data
    ∧ sanitizeSpecSteps ("Claude: a b").data = sanitizeChars ("Claude: a b").data :=
  ⟨C9_sanitize_steps.1 ("Claude: a b").data,
   C9_sanitize_steps.2.1 ("Claude: a b").data (by decide)⟩

/- ### C10: idempotence of sanitization -/

/-- Characters that can appear in a sanitized name: alphanumerics, dash,
underscore. -/
def goodChar (c : Char) : Bool :=
  isAlnumJS c || c = '-' || c = '_'

/-- No two adjacent characters both satisfy p. -/
def noTwoAdj (p : Char → Bool) : List Char → Bool
  | c1 :: c2 :: cs => (!(p c1 && p c2)) && noTwoAdj p (c2 :: cs)
  | _ => true

/-- Shape of a fully sanitized name: only good characters, no repeated
dashes, and no leading or trailing dash. -/
def SanitizedForm (s : List Char) : Prop :=
  (∀ c ∈ s, goodChar c = true) ∧ noTwoAdj isDashC s = true
    ∧ s.head? ≠ some '-' ∧ lastOpt s ≠ some '-'

theorem and_true_parts {a b : Bool} (h : (a && b) = true) : a = true ∧ b = true := by
  cases a
  · simp at h
  · cases b
    · simp at h
    · exact ⟨rfl, rfl⟩

theorem dropLeadDash_cons (a : Char) (t : List Char) :
    dropLeadDash (a :: t) = if a = '-' then t else a :: t := rfl

theorem dropTrailDash_singleton (a : Char) :
    dropTrailDash [a] = if a = '-' then [] else [a] := rfl

theorem noTwoAdj_cons_cons (p : Char → Bool) (a b : Char) (l : List Char) :
    noTwoAdj p (a :: b :: l) = ((!(p a && p b)) && noTwoAdj p (b :: l)) := rfl

theorem noTwoAdj_tail (p : Char → Bool) (c : Char) (l : List Char)
    (h : noTwoAdj p (c :: l) = true) : noTwoAdj p l = true := by
  cases l with
  | nil => rfl
  | cons x xs =>
    rw [noTwoAdj_cons_cons] at h
    exact (and_true_parts h).2

theorem noTwoAdj_cons_notp (p : Char → Bool) (c : Char) (l : List Char)
    (hp : p c = false) : noTwoAdj p (c :: l) = noTwoAdj p l := by
  cases l with
  | nil => rfl
  | cons x xs =>
    rw [noTwoAdj_cons_cons]
    simp [hp]

theorem collapseRuns_cons_notp (p : Char → Bool) (d c : Char) (cs : List Char)
    (hp : p c = false) : collapseRuns p d (c :: cs) = c :: collapseRuns p d cs := by
  cases cs with
  | nil => simp [collapseRuns, hp]
  | cons b t => simp [collapseRuns, hp]

theorem collapseRuns_cons_run (p : Char → Bool) (d c b : Char) (t : List Char)
    (hp : p c = true) (hp2 : p b = true) :
    collapseRuns p d (c :: b :: t) = collapseRuns p d (b :: t) := by
  simp [collapseRuns, hp, hp2]

theorem collapseRuns_cons_end (p : Char → Bool) (d c b : Char) (t : List Char)
    (hp : p c = true) (hp2 : p b = false) :
    collapseRuns p d (c :: b :: t) = d :: collapseRuns p d (b :: t) := by
  simp [collapseRuns, hp, hp2]

theorem mem_collapseRuns (p : Char → Bool) (d : Char) :
    ∀ s c, c ∈ collapseRuns p d s → c = d ∨ (c ∈ s ∧ p c = false) := by
  intro s
  induction s with
  | nil =>
    intro c h
    simp [collapseRuns] at h
  | cons a t ih =>
    cases t with
    | nil =>
      intro c h
      by_cases hp : p a = true
      · simp [collapseRuns, hp] at h
        exact Or.inl h
      · have hpf : p a = false := by simpa using hp
        simp [collapseRuns, hpf] at h
        exact Or.inr ⟨by simp [h], h ▸ hpf⟩
    | cons b t2 =>
      intro c h
      by_cases hp : p a = true
      · by_cases hp2 : p b = true
        · rw [collapseRuns_cons_run p d a b t2 hp hp2] at h
          rcases ih c h with h1 | ⟨h2, h3⟩
          · exact Or.inl h1
          · exact Or.inr ⟨List.mem_cons_of_mem _ h2, h3⟩
        · have hp2f : p b = false := by simpa using hp2
          rw [collapseRuns_cons_end p d a b t2 hp hp2f] at h
          rcases List.mem_cons.mp h with h1 | h1
          · exact Or.inl h1
          · rcases ih c h1 with h2 | ⟨h3, h4⟩
            · exact Or.inl h2
            · exact Or.inr ⟨List.mem_cons_of_mem _ h3, h4⟩
      · have hpf : p a = false := by simpa using hp
        rw [collapseRuns_cons_notp p d a (b :: t2) hpf] at h
        rcases List.mem_cons.mp h with h1 | h1
        · exact Or.inr ⟨by simp [h1], h1 ▸ hpf⟩
        · rcases ih c h1 with h2 | ⟨h3, h4⟩
          · exact Or.inl h2
          · exact Or.inr ⟨List.mem_cons_of_mem _ h3, h4⟩

theorem noTwoAdj_collapseRuns (p : Char → Bool) (d : Char) :
    ∀ s, noTwoAdj p (collapseRuns p d s) = true := by
  intro s
  induction s with
  | nil => rfl
  | cons a t ih =>
    cases t with
    | nil =>
      by_cases hp : p a = true
      · simp [collapseRuns, hp, noTwoAdj]
      · have hpf : p a = false := by simpa using hp
        simp [collapseRuns, hpf, noTwoAdj]
    | cons b t2 =>
      by_cases hp : p a = true
      · by_cases hp2 : p b = true
        · rw [collapseRuns_cons_run p d a b t2 hp hp2]
          exact ih
        · have hp2f : p b = false := by simpa using hp2
          rw [collapseRuns_cons_end p d a b t2 hp hp2f]
          rw [collapseRuns_cons_notp p d b t2 hp2f]
          rw [noTwoAdj_cons_cons]
          rw [← collapseRuns_cons_notp p d b t2 hp2f]
          simp [hp2f, ih]
      · have hpf : p a = false := by simpa using hp
        rw [collapseRuns_cons_notp p d a (b :: t2) hpf]
        rw [noTwoAdj_cons_notp p a _ hpf]
        exact ih

theorem mem_dropLeadDash (s : List Char) (c : Char) (h : c ∈ dropLeadDash s) :
    c ∈ s := by
  cases s with
  | nil => simpa [dropLeadDash] using h
  | cons a t =>
    rw [dropLeadDash_cons] at h
    by_cases ha : a = '-'
    · rw [if_pos ha] at h
      exact List.mem_cons_of_mem _ h
    · rw [if_neg ha] at h
      exact h

theorem mem_dropTrailDash : ∀ (s : List Char) (c : Char), c ∈ dropTrailDash s → c ∈ s := by
  intro s
  induction s with
  | nil =>
    intro c h
    simpa [dropTrailDash] using h
  | cons a t ih =>
    cases t with
    | nil =>
      intro c h
      rw [dropTrailDash_singleton] at h
      by_cases ha : a = '-'
      · rw [if_pos ha] at h
        cases h
      · rw [if_neg ha] at h
        exact h
    | cons b t2 =>
      intro c h
      rw [show dropTrailDash (a :: b :: t2) = a :: dropTrailDash (b :: t2) from rfl] at h
      rcases List.mem_cons.mp h with h1 | h1
      · exact h1 ▸ List.mem_cons_self a _
      · exact List.mem_cons_of_mem _ (ih c h1)

theorem head_dropLeadDash_ne (s : List Char) (h2 : noTwoAdj isDashC s = true) :
    (dropLeadDash s).head? ≠ some '-' := by
  cases s with
  | nil => simp [dropLeadDash]
  | cons a t =>
    rw [dropLeadDash_cons]
    by_cases ha : a = '-'
    · rw [if_pos ha]
      cases t with
      | nil => simp
      | cons b t2 =>
        subst ha
        rw [noTwoAdj_cons_cons] at h2
        have h3 := (and_true_parts h2).1
        rw [show isDashC '-' = true from by decide, Bool.true_and] at h3
        have h4 : isDashC b = false := by simpa using h3
        have hbne : b ≠ '-' := of_decide_eq_false h4
        simp [hbne]
    · rw [if_neg ha]
      simp [ha]

theorem head_dropTrailDash (s : List Char) :
    (dropTrailDash s).head? = s.head? ∨ dropTrailDash s = [] := by
  cases s with
  | nil => exact Or.inr rfl
  | cons a t =>
    cases t with
    | nil =>
      rw [dropTrailDash_singleton]
      by_cases ha : a = '-'
      · rw [if_pos ha]
        exact Or.inr rfl
      · rw [if_neg ha]
        exact Or.inl rfl
    | cons b t2 => exact Or.inl rfl

theorem lastOpt_dropTrailDash_ne :
    ∀ s : List Char, noTwoAdj isDashC s = true →
      lastOpt (dropTrailDash s) ≠ some '-' := by
  intro s
  induction s with
  | nil =>
    intro h2
    simp [dropTrailDash, lastOpt]
  | cons a t ih =>
    cases t with
    | nil =>
      intro h2
      rw [dropTrailDash_singleton]
      by_cases ha : a = '-'
      · rw [if_pos ha]
        simp [lastOpt]
      · rw [if_neg ha]
        simp [lastOpt, ha]
    | cons b t2 =>
      intro h2
      rw [show dropTrailDash (a :: b :: t2) = a :: dropTrailDash (b :: t2) from rfl]
      rw [lastOpt_cons]
      have ih2 := ih (noTwoAdj_tail isDashC a (b :: t2) h2)
      cases hr : lastOpt (dropTrailDash (b :: t2)) with
      | some y =>
        rw [hr] at ih2
        simpa using ih2
      | none =>
        have hnil : dropTrailDash (b :: t2) = [] := by
          cases hd : dropTrailDash (b :: t2) with
          | nil => rfl
          | cons x xs =>
            rw [hd, lastOpt_cons] at hr
            cases hr
        have hbt : t2 = [] ∧ b = '-' := by
          cases t2 with
          | nil =>
            refine ⟨rfl, ?_⟩
            by_contra hb
            rw [dropTrailDash_singleton, if_neg hb] at hnil
            cases hnil
          | cons x xs =>
            rw [show dropTrailDash (b :: x :: xs) = b :: dropTrailDash (x :: xs) from rfl] at hnil
            cases hnil
        obtain ⟨ht2, hb⟩ := hbt
        subst ht2
        subst hb
        rw [noTwoAdj_cons_cons] at h2
        have h3 := (and_true_parts h2).1
        rw [show isDashC '-' = true from by decide, Bool.and_true] at h3
        have h4 : isDashC a = false := by simpa using h3
        have ha : a ≠ '-' := of_decide_eq_false h4
        simp [ha]

theorem noTwoAdj_dropLeadDash (p : Char → Bool) (s : List Char)
    (h : noTwoAdj p s = true) : noTwoAdj p (dropLeadDash s) = true := by
  cases s with
  | nil => exact h
  | cons a t =>
    rw [dropLeadDash_cons]
    by_cases ha : a = '-'
    · rw [if_pos ha]
      exact noTwoAdj_tail p a t h
    · rw [if_neg ha]
      exact h

theorem noTwoAdj_dropTrailDash (p : Char → Bool) :
    ∀ s, noTwoAdj p s = true → noTwoAdj p (dropTrailDash s) = true := by
  intro s
  induction s with
  | nil => intro h; exact h
  | cons a t ih =>
    cases t with
    | nil =>
      intro h
      rw [dropTrailDash_singleton]
      by_cases ha : a = '-'
      · rw [if_pos ha]
        rfl
      · rw [if_neg ha]
        rfl
    | cons b t2 =>
      intro h
      rw [show dropTrailDash (a :: b :: t2) = a :: dropTrailDash (b :: t2) from rfl]
      have ih2 := ih (noTwoAdj_tail p a (b :: t2) h)
      cases hr : dropTrailDash (b :: t2) with
      | nil => rfl
      | cons x xs =>
        rcases head_dropTrailDash (b :: t2) with hh | hnil
        · rw [hr] at hh ih2
          have hxb : x = b := by simpa using hh
          subst hxb
          rw [noTwoAdj_cons_cons]
          rw [noTwoAdj_cons_cons] at h
          have h1 := (and_true_parts h).1
          simp [h1, ih2]
        · rw [hr] at hnil
          cases hnil

theorem kept_not_space_good (c : Char) (hk : isKeptChar c = true)
    (hs : isSpaceJS c = false) : goodChar c = true := by
  unfold isKeptChar at hk
  rw [hs, Bool.or_false] at hk
  exact hk

theorem space_not_good (c : Char) (hs : isSpaceJS c = true) : goodChar c = false := by
  have h6 : c = ' ' ∨ c = '\t' ∨ c = '\n' ∨ c = '\r' ∨ c = '\x0b' ∨ c = '\x0c' := by
    by_contra hall
    push_neg at hall
    obtain ⟨h1, h2, h3, h4, h5, h6⟩ := hall
    unfold isSpaceJS at hs
    simp [h1, h2, h3, h4, h5, h6] at hs
  rcases h6 with h | h | h | h | h | h <;> subst h <;> decide

theorem good_not_space (c : Char) (h : goodChar c = true) : isSpaceJS c = false := by
  by_contra hx
  have hs : isSpaceJS c = true := by simpa using hx
  rw [space_not_good c hs] at h
  simp at h

theorem good_ne_colon (c : Char) (h : goodChar c = true) : c ≠ ':' := by
  intro he
  subst he
  exact absurd h (by decide)

theorem good_kept (c : Char) (h : goodChar c = true) : isKeptChar c = true := by
  unfold goodChar at h
  unfold isKeptChar
  rcases Bool.eq_false_or_eq_true (isSpaceJS c) with hsp | hsp
  · rw [hsp]
    simp
  · rw [hsp, Bool.or_false]
    exact h

/-- The output of sanitization is in sanitized form: only
alphanumerics/dashes/underscores, no repeated dashes, no end dashes. -/
theorem sanitizedForm_sanitizeChars (s : List Char) :
    SanitizedForm (sanitizeChars s) := by
  unfold sanitizeChars trimDashEnds
  set u := (trimChars (removeFirstOcc claudeTag s)).filter isKeptChar with hu
  set v := collapseRuns isSpaceJS '-' u with hv
  set w := collapseRuns isDashC '-' v with hw
  have hugood : ∀ c ∈ u, isKeptChar c = true := fun c hc => (List.mem_filter.mp hc).2
  have hvgood : ∀ c ∈ v, goodChar c = true := by
    intro c hc
    rcases mem_collapseRuns isSpaceJS '-' u c hc with h1 | ⟨h2, h3⟩
    · subst h1
      decide
    · exact kept_not_space_good c (hugood c h2) h3
  have hwgood : ∀ c ∈ w, goodChar c = true := by
    intro c hc
    rcases mem_collapseRuns isDashC '-' v c hc with h1 | ⟨h2, _⟩
    · subst h1
      decide
    · exact hvgood c h2
  have hwadj : noTwoAdj isDashC w = true := noTwoAdj_collapseRuns isDashC '-' v
  refine ⟨?_, ?_, ?_, ?_⟩
  · intro c hc
    exact hwgood c (mem_dropLeadDash w c (mem_dropTrailDash (dropLeadDash w) c hc))
  · exact noTwoAdj_dropTrailDash isDashC _ (noTwoAdj_dropLeadDash isDashC w hwadj)
  · rcases head_dropTrailDash (dropLeadDash w) with hh | hnil
    · rw [hh]
      exact head_dropLeadDash_ne w hwadj
    · rw [hnil]
      simp
  · exact lastOpt_dropTrailDash_ne (dropLeadDash w) (noTwoAdj_dropLeadDash isDashC w hwadj)

theorem matchTag_some_mem :
    ∀ (pat u rest : List Char), matchTag pat u = some rest → ∀ c ∈ pat, c ∈ u := by
  intro pat
  induction pat with
  | nil =>
    intro u rest h c hc
    cases hc
  | cons p ps ih =>
    intro u rest h c hc
    cases u with
    | nil => cases h
    | cons x xs =>
      unfold matchTag at h
      by_cases hpx : p = x
      · rw [if_pos hpx] at h
        rcases List.mem_cons.mp hc with h1 | h1
        · subst h1
          exact hpx ▸ List.mem_cons_self x xs
        · exact List.mem_cons_of_mem _ (ih xs rest h c h1)
      · rw [if_neg hpx] at h
        cases h

theorem removeFirstOcc_eq_self (pat : List Char) (hp : ':' ∈ pat) :
    ∀ s, ':' ∉ s → removeFirstOcc pat s = s := by
  intro s
  induction s with
  | nil =>
    intro hs
    rfl
  | cons c cs ih =>
    intro hs
    unfold removeFirstOcc
    rcases hm : matchTag pat (c :: cs) with _ | rest
    · dsimp only
      rw [ih (fun hin => hs (List.mem_cons_of_mem _ hin))]
    · exact absurd (matchTag_some_mem pat (c :: cs) rest hm ':' hp) hs

theorem dropWhile_eq_self_of (p : Char → Bool) (l : List Char)
    (h : ∀ c ∈ l, p c = false) : l.dropWhile p = l := by
  cases l with
  | nil => rfl
  | cons c cs =>
    rw [List.dropWhile_cons]
    rw [h c (List.mem_cons_self c cs)]
    simp

theorem trimChars_eq_self (l : List Char) (h : ∀ c ∈ l, isSpaceJS c = false) :
    trimChars l = l := by
  unfold trimChars
  rw [dropWhile_eq_self_of isSpaceJS l h]
  rw [dropWhile_eq_self_of isSpaceJS l.reverse (fun c hc => h c (List.mem_reverse.mp hc))]
  exact List.reverse_reverse l

theorem collapseRuns_eq_self_of_nop (p : Char → Bool) (d : Char) :
    ∀ s, (∀ c ∈ s, p c = false) → collapseRuns p d s = s := by
  intro s
  induction s with
  | nil =>
    intro h
    rfl
  | cons a t ih =>
    cases t with
    | nil =>
      intro h
      simp [collapseRuns, h a (List.mem_cons_self a [])]
    | cons b t2 =>
      intro h
      rw [collapseRuns_cons_notp p d a (b :: t2) (h a (List.mem_cons_self _ _))]
      rw [ih (fun c hc => h c (List.mem_cons_of_mem _ hc))]

theorem collapseRuns_eq_self_of_noTwoAdj (p : Char → Bool) (d : Char)
    (hpd : ∀ c, p c = true → c = d) :
    ∀ s, noTwoAdj p s = true → collapseRuns p d s = s := by
  intro s
  induction s with
  | nil =>
    intro h
    rfl
  | cons a t ih =>
    cases t with
    | nil =>
      intro h
      by_cases hp : p a = true
      · rw [show collapseRuns p d [a] = [d] by simp [collapseRuns, hp]]
        rw [hpd a hp]
      · have hpf : p a = false := by simpa using hp
        simp [collapseRuns, hpf]
    | cons b t2 =>
      intro h
      by_cases hp : p a = true
      · rw [noTwoAdj_cons_cons] at h
        obtain ⟨h1, h2⟩ := and_true_parts h
        have hb : p b = false := by
          rcases Bool.eq_false_or_eq_true (p b) with hbt | hbf
          · rw [hp, hbt] at h1
            cases h1
          · exact hbf
        rw [collapseRuns_cons_end p d a b t2 hp hb, ih h2, ← hpd a hp]
      · have hpf : p a = false := by simpa using hp
        rw [collapseRuns_cons_notp p d a (b :: t2) hpf]
        rw [ih (noTwoAdj_tail p a (b :: t2) h)]

theorem dropLeadDash_eq_self (s : List Char) (h : s.head? ≠ some '-') :
    dropLeadDash s = s := by
  cases s with
  | nil => rfl
  | cons a t =>
    rw [dropLeadDash_cons]
    rw [if_neg]
    intro ha
    exact h (by simp [ha])

theorem dropTrailDash_eq_self : ∀ s : List Char, lastOpt s ≠ some '-' →
    dropTrailDash s = s := by
  intro s
  induction s with
  | nil =>
    intro h
    rfl
  | cons a t ih =>
    cases t with
    | nil =>
      intro h
      rw [dropTrailDash_singleton]
      rw [if_neg]
      intro ha
      exact h (by simp [lastOpt, ha])
    | cons b t2 =>
      intro h
      rw [show dropTrailDash (a :: b :: t2) = a :: dropTrailDash (b :: t2) from rfl]
      rw [ih h]

/-- Sanitization is the identity on any name already in sanitized form:
every step of the pipeline fixes such a name. -/
theorem sanitizeChars_eq_self (s : List Char) (h : SanitizedForm s) :
    sanitizeChars s = s := by
  obtain ⟨hgood, hadj, hhead, hlast⟩ := h
  have hnc : ':' ∉ s := fun hin => good_ne_colon ':' (hgood ':' hin) rfl
  have hnsp : ∀ c ∈ s, isSpaceJS c = false := fun c hc => good_not_space c (hgood c hc)
  have hkept : ∀ c ∈ s, isKeptChar c = true := fun c hc => good_kept c (hgood c hc)
  unfold sanitizeChars
  rw [removeFirstOcc_eq_self claudeTag (by decide) s hnc]
  rw [trimChars_eq_self s hnsp]
  rw [List.filter_eq_self.mpr hkept]
  rw [collapseRuns_eq_self_of_nop isSpaceJS '-' s hnsp]
  rw [collapseRuns_eq_self_of_noTwoAdj isDashC '-' (fun c hc => of_decide_eq_true hc) s hadj]
  unfold trimDashEnds
  rw [dropLeadDash_eq_self s hhead]
  rw [dropTrailDash_eq_self s hlast]

/-- C10: sanitizeProjectName is idempotent — its output contains only
alphanumerics, dashes and underscores, with no whitespace, no colon, no
repeated dashes and no leading or trailing dash, and every sanitization
step is the identity on any such already-sanitized name. -/
theorem C10_sanitize_idempotent :
    (∀ s : String, sanitizeProjectName (sanitizeProjectName s) = sanitizeProjectName s)
    ∧ (∀ l : List Char, SanitizedForm (sanitizeChars l))
    ∧ (∀ l : List Char, SanitizedForm l → sanitizeChars l = l) := by
  refine ⟨?_, sanitizedForm_sanitizeChars, sanitizeChars_eq_self⟩
  intro s
  show (⟨sanitizeChars (⟨sanitizeChars s.data⟩ : String).data⟩ : String)
    = (⟨sanitizeChars s.data⟩ : String)
  rw [show ((⟨sanitizeChars s.data⟩ : String).data) = sanitizeChars s.data from rfl]
  rw [sanitizeChars_eq_self (sanitizeChars s.data) (sanitizedForm_sanitizeChars s.data)]

/-- Witness for C10: idempotence at a concrete name and identity on a
concrete already-sanitized name. -/
theorem C10_sanitize_idempotent_witness :
    sanitizeProjectName (sanitizeProjectName "Claude: My App!")
      = sanitizeProjectName "Claude: My App!"
    ∧ sanitizeChars ['M', 'y', '-', 'A', 'p', 'p'] = ['M', 'y', '-', 'A', 'p', 'p'] :=
  ⟨C10_sanitize_idempotent.1 "Claude: My App!",
   C10_sanitize_idempotent.2.2 ['M', 'y', '-', 'A', 'p', 'p']
     ⟨by decide, by decide, by decide, by decide⟩⟩

end Whatscode
